import Mathlib

/-!
# B+ tree index: shallow embedding of the page layer and the tree engine

Sources embedded here:

* `src/page/b_plus_tree_leaf_page.cpp`     (namespace `LeafPage`)
* `src/page/b_plus_tree_internal_page.cpp` (namespace `InternalPage`)
* `src/index/b_plus_tree.cpp`              (namespace `BPlusTree`)

The embedding follows the explicit instantiation
`BPlusTree<int, int, BasicComparator<int>>` found at the end of each source
file: keys, values and page identifiers are C++ `int`, modelled as `Int`
(no arithmetic is ever performed on keys or values, and sizes stay far below
`2^31`, so no wrap-around is involved).

A page pointer is modelled by the page identifier of the frame it points
into; the null pointer is `none`.  Dereferencing a null pointer, a failing
`assert`, a `memmove` with a negative count and a loop that exhausts its fuel
are reported as a `Fault`.

## How the source text is read

The three files do not compile as they stand.  Where a name is misspelt or a
call does not match any declaration, the embedding takes the one reading the
surrounding code allows, and says so at the definition:

* `keyindex` is `KeyIndex`, `array` is `array_`, `item` is `items`,
  `brotherpage` is `brotherPage`, `GetPageId` without parentheses is a call;
* `!p->IsLeafPage()` in `FindLeafPage` tests `pointer`, the only page pointer
  in scope;
* `return res` in `Insert` returns `suc`, the only flag in scope;
* members of the page classes that the tree engine calls with extra arguments
  (`MoveAllTo(sibling, index, bpm)` and the like) are the members defined in
  the page sources, the extra arguments being unused by their bodies;
* the internal `MoveHalfTo` calls `CopyFirstFrom(st, half_size)`: the member
  named is the one called, with the entry `st` points at;
* lines 161-162 of `InsertIntoParent` are read as a split of the parent
  followed by the recursive call.

Everything else, in particular every `return`, comparison, bound and constant,
is taken as written.
-/

namespace BPT

/-! ## Basic types and constants -/

/-- `MappingType` is `std::pair<KeyType, ValueType>`; here `KeyType`, `ValueType`
and `page_id_t` are all C++ `int`, written `Int` throughout. -/
abbrev MappingType := Int × Int

/-- Modelled from the spec: the sentinel page id `INVALID` denoting "none"
(the constant is declared in a header that is not part of the sources). -/
def INVALID_PAGE_ID : Int := -1

/-- Modelled from the spec: the well-known page id (0) of the header page. -/
def HEADER_PAGE_ID : Int := 0

/-- Ways in which a run of the C++ code fails to return: a null or dangling pointer
is dereferenced, an `assert` fails, a loop does not end within the fuel given, or
`memmove` is handed a negative count. -/
inductive Fault where
  | nullDeref
  | assertFail
  | outOfFuel
  | outOfBounds
  deriving DecidableEq, Repr

inductive IndexPageType where
  | INVALID_INDEX_PAGE
  | LEAF_PAGE
  | INTERNAL_PAGE
  deriving DecidableEq, Repr

/-- Modelled from the spec: the externally supplied three-way comparator,
negative / zero / positive (`BasicComparator<int>` is not part of the sources). -/
def comparator (a b : Int) : Int :=
  if a < b then -1 else if a = b then 0 else 1

/-- Modelled from the spec: the byte sizes from which `Init` derives the fan-out
cap, `floor((PAGE_SIZE - header_bytes) / entry_bytes) - 1`.  `PAGE_SIZE`,
`sizeof(BPlusTreeLeafPage)`, `sizeof(BPlusTreeInternalPage)` and
`sizeof(MappingType)` come from headers that are not part of the sources. -/
structure PageLayout where
  PAGE_SIZE : Int
  sizeof_leaf_page : Int
  sizeof_internal_page : Int
  sizeof_mapping : Int

/-- The common page header, the leaf-only `next_page_id_` and the entry array.
Leaf and internal pages share this record because the sources move between the
two views with `reinterpret_cast`.  `array_` is indexed by a C++ `int`. -/
structure BPlusTreePage where
  page_type_ : IndexPageType
  size_ : Int
  max_size_ : Int
  parent_page_id_ : Int
  page_id_ : Int
  next_page_id_ : Int
  array_ : Int → MappingType

/-- Modelled from the spec: the zeroed frame handed out by `NewPage`. -/
def zeroedFrame : BPlusTreePage :=
  { page_type_ := IndexPageType.INVALID_INDEX_PAGE, size_ := 0, max_size_ := 0,
    parent_page_id_ := 0, page_id_ := 0, next_page_id_ := 0, array_ := fun _ => (0, 0) }

/-! ### Counted loops and `memmove` -/

/-- The loop `for (int i = lo; i < hi; i++) body`, for a body that changes neither
`i` nor the bounds. -/
def forUp {σ : Type} (lo hi : Int) (body : Int → σ → σ) (s : σ) : σ :=
  (List.range (hi - lo).toNat).foldl (fun acc (j : Nat) => body (lo + (j : Int)) acc) s

/-- The loop `for (int i = hi; i > lo; i--) body`, for a body that changes neither
`i` nor the bounds. -/
def forDown {σ : Type} (hi lo : Int) (body : Int → σ → σ) (s : σ) : σ :=
  (List.range (hi - lo).toNat).foldl (fun acc (j : Nat) => body (hi - (j : Int)) acc) s

/-- The array after a move of `n` cells: cells `dst .. dst + n - 1` hold the old
contents of `src .. src + n - 1`, the others are as they were. -/
def moveCells (a : Int → MappingType) (dst src n : Int) : Int → MappingType :=
  fun j => if dst ≤ j ∧ j < dst + n then a (src + (j - dst)) else a j

/-- The C library call `memmove(a + dst, a + src, n * sizeof(MappingType))` for an
`int` count `n`.  The byte count is a `size_t`: a negative `n` becomes a count
beyond `2^63` bytes and the call runs off the page, which is reported as
`Fault.outOfBounds`; a count `n = 0` moves nothing. -/
def memmove (a : Int → MappingType) (dst src n : Int) : Except Fault (Int → MappingType) :=
  if n < 0 then Except.error Fault.outOfBounds else Except.ok (moveCells a dst src n)

/-! ### `BPlusTreePage` accessors

`b_plus_tree_page.cpp` is not part of the sources; the accessors are the plain
getters and setters their names say, and `GetMinSize` follows the spec. -/

def IsLeafPage (p : BPlusTreePage) : Bool := p.page_type_ = IndexPageType.LEAF_PAGE

/-- Modelled from the spec: the parent of the root is `INVALID`. -/
def IsRootPage (p : BPlusTreePage) : Bool := p.parent_page_id_ = INVALID_PAGE_ID

def GetSize (p : BPlusTreePage) : Int := p.size_

def SetSize (p : BPlusTreePage) (size : Int) : BPlusTreePage := { p with size_ := size }

def IncreaseSize (p : BPlusTreePage) (amount : Int) : BPlusTreePage :=
  { p with size_ := p.size_ + amount }

def GetMaxSize (p : BPlusTreePage) : Int := p.max_size_

def SetMaxSize (p : BPlusTreePage) (max_size : Int) : BPlusTreePage :=
  { p with max_size_ := max_size }

/-- Modelled from the spec: `min_size = ceil(max_size / 2)`. -/
def GetMinSize (p : BPlusTreePage) : Int := Int.tdiv (p.max_size_ + 1) 2

def GetParentPageId (p : BPlusTreePage) : Int := p.parent_page_id_

def SetParentPageId (p : BPlusTreePage) (parent_page_id : Int) : BPlusTreePage :=
  { p with parent_page_id_ := parent_page_id }

def GetPageId (p : BPlusTreePage) : Int := p.page_id_

def SetPageId (p : BPlusTreePage) (page_id : Int) : BPlusTreePage :=
  { p with page_id_ := page_id }

def SetPageType (p : BPlusTreePage) (page_type : IndexPageType) : BPlusTreePage :=
  { p with page_type_ := page_type }

/-- The live entries `array_[0 .. size_ - 1]` of a page. -/
def entries (p : BPlusTreePage) : List MappingType :=
  (List.range p.size_.toNat).map (fun (i : Nat) => p.array_ (i : Int))

/-- The keys of the live entries are strictly ascending. -/
def StrictAsc (p : BPlusTreePage) : Prop :=
  ((entries p).map Prod.fst).Pairwise (fun a b => a < b)

/-- An array holding the given entries from cell 0 on, zero elsewhere. -/
def arrayOf (l : List MappingType) : Int → MappingType :=
  fun i => if i < 0 then (0, 0) else l.getD i.toNat (0, 0)

/-- A leaf page with the given identity, cap and entries. -/
def leafOf (page_id parent_id : Int) (max_size : Int) (l : List MappingType) :
    BPlusTreePage :=
  { page_type_ := IndexPageType.LEAF_PAGE, size_ := l.length, max_size_ := max_size,
    parent_page_id_ := parent_id, page_id_ := page_id, next_page_id_ := INVALID_PAGE_ID,
    array_ := arrayOf l }

/-- An internal page with the given identity, cap and entries; the key of the first
entry is the dummy key of slot 0. -/
def internalOf (page_id parent_id : Int) (max_size : Int) (l : List MappingType) :
    BPlusTreePage :=
  { page_type_ := IndexPageType.INTERNAL_PAGE, size_ := l.length, max_size_ := max_size,
    parent_page_id_ := parent_id, page_id_ := page_id, next_page_id_ := 0,
    array_ := arrayOf l }

deriving instance DecidableEq for Except

instance (p : BPlusTreePage) : Decidable (StrictAsc p) := by
  unfold StrictAsc
  infer_instance

/-! ## Leaf page (`b_plus_tree_leaf_page.cpp`) -/

namespace LeafPage

/-- `BPlusTreeLeafPage::Init`, lines 17-26.  The `max_size` argument of the source
is not used by the body (the cap is computed from the page layout), so it is not
a parameter here; the array obtained from `new` is taken to be zero-filled. -/
def Init (L : PageLayout) (this : BPlusTreePage) (page_id parent_id : Int) :
    BPlusTreePage :=
  let p := SetPageType this IndexPageType.LEAF_PAGE
  let p := { p with next_page_id_ := INVALID_PAGE_ID }
  let p := SetSize p 0
  let p := SetMaxSize p (Int.tdiv (L.PAGE_SIZE - L.sizeof_leaf_page) L.sizeof_mapping - 1)
  let p := SetPageId p page_id
  let p := SetParentPageId p parent_id
  { p with array_ := fun _ => (0, 0) }

def GetNextPageId (this : BPlusTreePage) : Int := this.next_page_id_

def SetNextPageId (this : BPlusTreePage) (next_page_id : Int) : BPlusTreePage :=
  { this with next_page_id_ := next_page_id }

/-- The `while (l <= r)` loop of `KeyIndex`, lines 50-54. -/
def KeyIndex.loop (this : BPlusTreePage) (key : Int) : Nat → Int → Int → Except Fault Int
  | 0, _, _ => Except.error Fault.outOfFuel
  | fuel + 1, l, r =>
    if l ≤ r then
      let mid := Int.tdiv (l + r) 2
      if comparator (this.array_ mid).1 key ≥ 0 then KeyIndex.loop this key fuel l (mid - 1)
      else KeyIndex.loop this key fuel (mid + 1) r
    else Except.ok (r + 1)

/-- `BPlusTreeLeafPage::KeyIndex`, lines 48-56.  The interval `[l, r]` starts with
`size_` cells and loses at least one per iteration, so `size_ + 1` rounds of
fuel are never used up (`LeafPage.KeyIndex_returns`). -/
def KeyIndex (this : BPlusTreePage) (key : Int) : Except Fault Int :=
  KeyIndex.loop this key ((GetSize this).toNat + 1) 0 (GetSize this - 1)

def KeyAt (this : BPlusTreePage) (index : Int) : Int := (this.array_ index).1

def GetItem (this : BPlusTreePage) (index : Int) : MappingType := this.array_ index

/-- `BPlusTreeLeafPage::Insert`, lines 85-95 (the source spells the call
`keyindex`).  Returns the new size and the page. -/
def Insert (this : BPlusTreePage) (key : Int) (value : Int) :
    Except Fault (Int × BPlusTreePage) := do
  let index ← KeyIndex this key
  let this := IncreaseSize this 1
  let now_size := GetSize this
  let a := forDown (now_size - 1) index (fun i a => Function.update a i (a (i - 1))) this.array_
  let a := Function.update a index (key, value)
  pure (now_size, { this with array_ := a })

/-- `BPlusTreeLeafPage::Lookup`, lines 137-144.  `value` is the content of the
output parameter before the call; the second component is its content after. -/
def Lookup (this : BPlusTreePage) (key : Int) (value : Int) :
    Except Fault (Bool × Int) := do
  let index ← KeyIndex this key
  if index < GetSize this ∧ comparator (this.array_ index).1 key = 0 then
    pure (true, (this.array_ index).2)
  else
    pure (false, value)

/-- `BPlusTreeLeafPage::RemoveAndDeleteRecord`, lines 156-165.  Returns the size
after the call and the page. -/
def RemoveAndDeleteRecord (this : BPlusTreePage) (key : Int) :
    Except Fault (Int × BPlusTreePage) := do
  let dayudengyu_index ← KeyIndex this key
  if dayudengyu_index ≥ GetSize this ∨ comparator key (KeyAt this dayudengyu_index) ≠ 0 then
    pure (GetSize this, this)
  else
    let a ← memmove this.array_ dayudengyu_index (dayudengyu_index + 1)
      (GetSize this - dayudengyu_index - 1)
    let this := IncreaseSize { this with array_ := a } (-1)
    pure (GetSize this, this)

/-- `BPlusTreeLeafPage::MoveHalfTo`, lines 104-114.  Returns the page and the
recipient. -/
def MoveHalfTo (this recipient : BPlusTreePage) : BPlusTreePage × BPlusTreePage :=
  let now_size := GetMaxSize this + 1
  let break_index := Int.tdiv now_size 2
  let ra := forUp break_index now_size
    (fun i a => Function.update a (i - break_index) (this.array_ i)) recipient.array_
  let recipient := SetNextPageId { recipient with array_ := ra } (GetNextPageId this)
  let this := SetNextPageId this (GetPageId recipient)
  let this := SetSize this break_index
  let recipient := SetSize recipient (now_size - break_index)
  (this, recipient)

/-- `BPlusTreeLeafPage::CopyNFrom`, lines 122-126. -/
def CopyNFrom (this : BPlusTreePage) (items : Int → MappingType) (size : Int) : BPlusTreePage :=
  { this with array_ := forUp 0 size (fun i a => Function.update a i (items i)) this.array_ }

/-- `BPlusTreeLeafPage::MoveAllTo`, lines 175-184.  Returns the page and the
recipient. -/
def MoveAllTo (this recipient : BPlusTreePage) : BPlusTreePage × BPlusTreePage :=
  let startIdx := GetSize recipient
  let ra := forUp 0 (GetSize this)
    (fun i a => Function.update a (startIdx + i) (this.array_ i)) recipient.array_
  let recipient := SetNextPageId { recipient with array_ := ra } (GetNextPageId this)
  let recipient := IncreaseSize recipient (GetSize this)
  let this := SetSize this 0
  (this, recipient)

/-- `BPlusTreeLeafPage::CopyLastFrom`, lines 210-213. -/
def CopyLastFrom (this : BPlusTreePage) (item : MappingType) : BPlusTreePage :=
  IncreaseSize { this with array_ := Function.update this.array_ (GetSize this) item } 1

end LeafPage

/-! ## Internal page (`b_plus_tree_internal_page.cpp`), page-local operations -/

namespace InternalPage

/-- `BPlusTreeInternalPage::Init`, lines 14-22.  As for the leaf page, the
`max_size` argument is not used by the body. -/
def Init (L : PageLayout) (this : BPlusTreePage) (page_id parent_id : Int) : BPlusTreePage :=
  let p := SetPageType this IndexPageType.INTERNAL_PAGE
  let p := SetSize p 0
  let p := SetPageId p page_id
  let p := SetParentPageId p parent_id
  let p := SetMaxSize p (Int.tdiv (L.PAGE_SIZE - L.sizeof_internal_page) L.sizeof_mapping - 1)
  { p with array_ := fun _ => (0, 0) }

def KeyAt (this : BPlusTreePage) (index : Int) : Int := (this.array_ index).1

def SetKeyAt (this : BPlusTreePage) (index : Int) (key : Int) : BPlusTreePage :=
  { this with array_ := Function.update this.array_ index (key, (this.array_ index).2) }

def ValueAt (this : BPlusTreePage) (index : Int) : Int := (this.array_ index).2

/-- The `for` loop of `ValueIndex`, lines 46-50; `n` counts the iterations left. -/
def ValueIndex.loop (this : BPlusTreePage) (value : Int) (size : Int) : Nat → Int → Int
  | 0, _ => -1
  | n + 1, i =>
    if i < size then
      if (this.array_ i).2 = value then i else ValueIndex.loop this value size n (i + 1)
    else -1

/-- `BPlusTreeInternalPage::ValueIndex`, lines 44-52: the scan starts at slot 1 and
makes at most `size - 1` iterations. -/
def ValueIndex (this : BPlusTreePage) (value : Int) : Int :=
  ValueIndex.loop this value (GetSize this) (GetSize this - 1).toNat 1

/-- The `for` loop of `KeyIndex`, lines 57-61; `n` counts the iterations left. -/
def KeyIndex.loop (this : BPlusTreePage) (key : Int) (size : Int) : Nat → Int → Int
  | 0, _ => -1
  | n + 1, i =>
    if i < size then
      if (this.array_ i).1 = key then i else KeyIndex.loop this key size n (i + 1)
    else -1

/-- `BPlusTreeInternalPage::KeyIndex`, lines 55-63: the scan starts at slot 0. -/
def KeyIndex (this : BPlusTreePage) (key : Int) : Int :=
  KeyIndex.loop this key (GetSize this) (GetSize this).toNat 0

/-- The `while (left <= right)` loop of `Lookup`, lines 94-106.  Returns `left` and
`targetIndex`. -/
def Lookup.loop (this : BPlusTreePage) (key : Int) : Nat → Int → Int → Except Fault (Int × Int)
  | 0, _, _ => Except.error Fault.outOfFuel
  | fuel + 1, left, right =>
    if left ≤ right then
      let mid := left + Int.tdiv (right - left) 2
      let compareResult := comparator (this.array_ mid).1 key
      if compareResult = 0 then Except.ok (left, mid)
      else if compareResult < 0 then Lookup.loop this key fuel (mid + 1) right
      else Lookup.loop this key fuel left (mid + 1)
    else Except.ok (left, -1)

/-- `BPlusTreeInternalPage::Lookup`, lines 84-111. -/
def Lookup (fuel : Nat) (this : BPlusTreePage) (key : Int) : Except Fault Int :=
  if ¬ (GetSize this > 1) then Except.error Fault.assertFail
  else if comparator key (this.array_ 1).1 < 0 then Except.ok (this.array_ 0).2
  else if comparator key (this.array_ (GetSize this - 1)).1 ≥ 0 then
    Except.ok (this.array_ (GetSize this - 1)).2
  else do
    let (left, targetIndex) ← Lookup.loop this key fuel 1 (GetSize this - 1)
    if targetIndex ≠ -1 then pure (this.array_ targetIndex).2
    else pure (this.array_ (left - 1)).2

/-- `BPlusTreeInternalPage::PopulateNewRoot`, lines 123-128. -/
def PopulateNewRoot (this : BPlusTreePage) (old_value new_key new_value : Int) : BPlusTreePage :=
  let a := Function.update this.array_ 0 ((this.array_ 0).1, old_value)
  let a := Function.update a 1 (new_key, new_value)
  SetSize { this with array_ := a } 2

/-- `BPlusTreeInternalPage::InsertNodeAfter`, lines 136-146.  Returns the new size
and the page. -/
def InsertNodeAfter (this : BPlusTreePage) (old_value new_key new_value : Int) :
    Except Fault (Int × BPlusTreePage) :=
  let index := ValueIndex this old_value
  if ¬ (index ≠ -1) then Except.error Fault.assertFail
  else
    let a := forDown (GetSize this - 1) index (fun i a => Function.update a (i + 1) (a i))
      this.array_
    let a := Function.update a (index + 1) (new_key, new_value)
    let this := IncreaseSize { this with array_ := a } 1
    Except.ok (GetSize this, this)

/-- `BPlusTreeInternalPage::Remove`, lines 188-192. -/
def Remove (this : BPlusTreePage) (index : Int) : Except Fault BPlusTreePage := do
  let a ← memmove this.array_ index (index + 1) (GetSize this - index - 1)
  pure (IncreaseSize { this with array_ := a } (-1))

/-- `BPlusTreeInternalPage::RemoveAndReturnOnlyChild`, lines 199-204.  Returns the
child and the page. -/
def RemoveAndReturnOnlyChild (this : BPlusTreePage) : Except Fault (Int × BPlusTreePage) :=
  let val := ValueAt this 0
  let this := IncreaseSize this (-1)
  if ¬ (GetSize this ≠ 0) then Except.error Fault.assertFail
  else Except.ok (val, this)

end InternalPage

/-! ## Buffer pool -/

/-- Modelled from the spec: the buffer pool manager of section 6, which is not part
of the sources.  `frames` maps a page id to the page bytes (absent when the id was
never allocated), `pin_count` is the pin reference count of each page, and
`next_page_id` is the id the next `NewPage` hands out.  The pool never runs out of
frames and never evicts a page; dirty flags are not tracked. -/
structure BufferPoolManager where
  frames : Int → Option BPlusTreePage
  pin_count : Int → Nat
  next_page_id : Nat

namespace BufferPoolManager

/-- Modelled from the spec: `NewPage() → (PageId, Frame*)` allocates and pins a new
zeroed frame. -/
def NewPage (bpm : BufferPoolManager) : Int × BufferPoolManager :=
  ((bpm.next_page_id : Int),
    { frames := Function.update bpm.frames (bpm.next_page_id : Int) (some zeroedFrame),
      pin_count := Function.update bpm.pin_count (bpm.next_page_id : Int) 1,
      next_page_id := bpm.next_page_id + 1 })

/-- Modelled from the spec: `FetchPage(PageId) → Frame*` pins an existing page; the
result is the null pointer (`none`) when there is no such page. -/
def FetchPage (bpm : BufferPoolManager) (page_id : Int) : Option Int × BufferPoolManager :=
  match bpm.frames page_id with
  | none => (none, bpm)
  | some _ =>
    (some page_id,
      { bpm with pin_count := Function.update bpm.pin_count page_id (bpm.pin_count page_id + 1) })

/-- Modelled from the spec: `UnpinPage(PageId, dirty)` releases one pin count. -/
def UnpinPage (bpm : BufferPoolManager) (page_id : Int) : BufferPoolManager :=
  { bpm with pin_count := Function.update bpm.pin_count page_id (bpm.pin_count page_id - 1) }

/-- Modelled from the spec: `CheckAllUnpinned() → bool`. -/
def CheckAllUnpinned (bpm : BufferPoolManager) : Prop := ∀ page_id, bpm.pin_count page_id = 0

/-- Reading through a page pointer; a null or dangling pointer is a fault. -/
def deref (bpm : BufferPoolManager) (ptr : Option Int) : Except Fault BPlusTreePage :=
  match ptr with
  | none => Except.error Fault.nullDeref
  | some page_id =>
    match bpm.frames page_id with
    | none => Except.error Fault.nullDeref
    | some page => Except.ok page

/-- Writing through a page pointer. -/
def store (bpm : BufferPoolManager) (page_id : Int) (page : BPlusTreePage) : BufferPoolManager :=
  { bpm with frames := Function.update bpm.frames page_id (some page) }

/-- A pool holding exactly the listed pages, nothing pinned. -/
def poolOf (pages : List (Int × BPlusTreePage)) (next_page_id : Nat) : BufferPoolManager :=
  { frames := fun i => (pages.find? (fun q => q.1 = i)).map (fun q => q.2),
    pin_count := fun _ => 0,
    next_page_id := next_page_id }

end BufferPoolManager

open BufferPoolManager

/-! ## Internal and leaf page operations that go through the buffer pool

`this` and `recipient` are page pointers (frame ids). -/

namespace InternalPage

/-- The body of the `for` loop of `CopyNFrom`, lines 172-175: copy entry `i` and
adopt the child it names. -/
def CopyNFrom.body (this : Int) (items : Int → MappingType) (i : Int)
    (acc : Except Fault BufferPoolManager) : Except Fault BufferPoolManager := do
  let bpm ← acc
  let page ← deref bpm (some this)
  let page := { page with array_ := Function.update page.array_ i (items i) }
  let bpm := store bpm this page
  let (new_page, bpm) := FetchPage bpm (page.array_ i).2
  let child ← deref bpm new_page
  let bpm := store bpm (page.array_ i).2 (SetParentPageId child (GetPageId page))
  pure (UnpinPage bpm (page.array_ i).2)

/-- `BPlusTreeInternalPage::CopyNFrom`, lines 170-177 (the source spells the
argument `item`). -/
def CopyNFrom (bpm : BufferPoolManager) (this : Int) (items : Int → MappingType) (size : Int) :
    Except Fault BufferPoolManager :=
  forUp 0 size (CopyNFrom.body this items) (Except.ok bpm)

/-- `BPlusTreeInternalPage::MoveAllTo`, lines 217-229 (`middle_key` is not used by
the body). -/
def MoveAllTo (bpm : BufferPoolManager) (this recipient : Int) :
    Except Fault BufferPoolManager := do
  let page ← deref bpm (some this)
  let _ ← deref bpm (some recipient)
  let (father, bpm) := FetchPage bpm (GetParentPageId page)
  let fpage ← deref bpm father
  let index := ValueIndex fpage (GetPageId page)
  let tmp := KeyAt fpage index
  let page ← deref bpm (some this)
  let bpm := store bpm this (SetKeyAt page 0 tmp)
  let fpage ← deref bpm father
  let fpage ← Remove fpage index
  let bpm := store bpm (GetParentPageId page) fpage
  let fpage ← deref bpm father
  let bpm := UnpinPage bpm (GetPageId fpage)
  let page ← deref bpm (some this)
  let bpm ← CopyNFrom bpm recipient page.array_ (GetSize page)
  let page ← deref bpm (some this)
  pure (store bpm this (SetSize page 0))

/-- `BPlusTreeInternalPage::CopyLastFrom`, lines 262-269. -/
def CopyLastFrom (bpm : BufferPoolManager) (this : Int) (pair : MappingType) :
    Except Fault BufferPoolManager := do
  let page ← deref bpm (some this)
  let (childPage, bpm) := FetchPage bpm pair.2
  let child ← deref bpm childPage
  let bpm := store bpm pair.2 (SetPageId child (GetPageId page))
  let bpm := UnpinPage bpm pair.2
  let page ← deref bpm (some this)
  let page := { page with array_ := Function.update page.array_ (GetSize page) pair }
  pure (store bpm this (IncreaseSize page 1))

/-- `BPlusTreeInternalPage::MoveFirstToEndOf`, lines 243-255 (`middle_key` is not
used by the body). -/
def MoveFirstToEndOf (bpm : BufferPoolManager) (this recipient : Int) :
    Except Fault BufferPoolManager := do
  let page ← deref bpm (some this)
  let (fatherpage, bpm) := FetchPage bpm (GetParentPageId page)
  let fpage ← deref bpm fatherpage
  let index := ValueIndex fpage (GetPageId page)
  let tmp := KeyAt fpage index
  let bpm := UnpinPage bpm (GetParentPageId page)
  let page ← deref bpm (some this)
  let new_pair : MappingType := (tmp, ValueAt page 0)
  let page := { page with
    array_ := Function.update page.array_ 0 ((page.array_ 0).1, ValueAt page 1) }
  let page ← Remove page 1
  let bpm := store bpm this page
  let bpm ← CopyLastFrom bpm recipient new_pair
  let page ← deref bpm (some this)
  pure (store bpm this (IncreaseSize page (-1)))

/-- `BPlusTreeInternalPage::CopyFirstFrom`, lines 290-305. -/
def CopyFirstFrom (bpm : BufferPoolManager) (this : Int) (pair : MappingType) :
    Except Fault BufferPoolManager := do
  let page ← deref bpm (some this)
  let (fatherpage, bpm) := FetchPage bpm (GetParentPageId page)
  let fpage ← deref bpm fatherpage
  let index := ValueIndex fpage (GetPageId page)
  let page ← deref bpm (some this)
  let bpm := store bpm this (SetKeyAt page 0 (KeyAt fpage index))
  let fpage ← deref bpm fatherpage
  let bpm := store bpm (GetParentPageId page) (SetKeyAt fpage 0 pair.1)
  let fpage ← deref bpm fatherpage
  let bpm := UnpinPage bpm (GetPageId fpage)
  let page ← deref bpm (some this)
  let a := forDown (GetSize page - 1) (-1) (fun i a => Function.update a (i + 1) (a i))
    page.array_
  let a := Function.update a 0 ((a 0).1, pair.2)
  let bpm := store bpm this { page with array_ := a }
  let (childpage, bpm) := FetchPage bpm pair.2
  let child ← deref bpm childpage
  let page ← deref bpm (some this)
  let bpm := store bpm pair.2 (SetParentPageId child (GetPageId page))
  let child ← deref bpm childpage
  pure (UnpinPage bpm (GetPageId child))

/-- `BPlusTreeInternalPage::MoveHalfTo`, lines 155-163.  Line 159 is
`recipient->CopyFirstFrom(st, half_size)` with `st = array_ + size - half_size`:
the member called is `CopyFirstFrom`, as written, and the entry it is given is the
one `st` points at, the first entry of the upper half. -/
def MoveHalfTo (bpm : BufferPoolManager) (this recipient : Int) :
    Except Fault BufferPoolManager := do
  let page ← deref bpm (some this)
  let size := GetSize page
  let half_size := Int.tdiv size 2
  let st : Int → MappingType := fun i => page.array_ (size - half_size + i)
  let bpm ← CopyFirstFrom bpm recipient (st 0)
  let page ← deref bpm (some this)
  let bpm := store bpm this (IncreaseSize page (-1 * half_size))
  let rpage ← deref bpm (some recipient)
  pure (store bpm recipient (IncreaseSize rpage half_size))

/-- `BPlusTreeInternalPage::MoveLastToFrontOf`, lines 279-283 (`middle_key` is not
used by the body). -/
def MoveLastToFrontOf (bpm : BufferPoolManager) (this recipient : Int) :
    Except Fault BufferPoolManager := do
  let page ← deref bpm (some this)
  let movepair := page.array_ (GetSize page - 1)
  let bpm := store bpm this (IncreaseSize page (-1))
  CopyFirstFrom bpm recipient movepair

end InternalPage

namespace LeafPage

/-- `BPlusTreeLeafPage::MoveFirstToEndOf`, lines 194-204. -/
def MoveFirstToEndOf (bpm : BufferPoolManager) (this recipient : Int) :
    Except Fault BufferPoolManager := do
  let page ← deref bpm (some this)
  let pair := GetItem page 0
  let page := IncreaseSize page (-1)
  let a ← memmove page.array_ 0 1 (GetSize page)
  let page := { page with array_ := a }
  let bpm := store bpm this page
  let rpage ← deref bpm (some recipient)
  let bpm := store bpm recipient (CopyLastFrom rpage pair)
  let page ← deref bpm (some this)
  let (parent, bpm) := FetchPage bpm (GetParentPageId page)
  let ppage ← deref bpm parent
  let page ← deref bpm (some this)
  let bpm := store bpm (GetParentPageId page)
    (InternalPage.SetKeyAt ppage (InternalPage.ValueIndex ppage (GetPageId page))
      (page.array_ 0).1)
  let page ← deref bpm (some this)
  pure (UnpinPage bpm (GetParentPageId page))

/-- `BPlusTreeLeafPage::CopyFirstFrom`, lines 230-239 (the source spells the array
`array`). -/
def CopyFirstFrom (bpm : BufferPoolManager) (this : Int) (item : MappingType) :
    Except Fault BufferPoolManager := do
  let page ← deref bpm (some this)
  let a ← memmove page.array_ 1 0 (GetSize page)
  let page := { page with array_ := a }
  let page := IncreaseSize page 1
  let page := { page with array_ := Function.update page.array_ 0 item }
  let bpm := store bpm this page
  let (parent, bpm) := FetchPage bpm (GetParentPageId page)
  let ppage ← deref bpm parent
  let page ← deref bpm (some this)
  let bpm := store bpm (GetParentPageId page)
    (InternalPage.SetKeyAt ppage (InternalPage.KeyIndex ppage (page.array_ 1).1)
      (page.array_ 0).1)
  let page ← deref bpm (some this)
  pure (UnpinPage bpm (GetParentPageId page))

/-- `BPlusTreeLeafPage::MoveLastToFrontOf`, lines 219-223. -/
def MoveLastToFrontOf (bpm : BufferPoolManager) (this recipient : Int) :
    Except Fault BufferPoolManager := do
  let page ← deref bpm (some this)
  let pair := GetItem page (GetSize page - 1)
  let bpm := store bpm this (IncreaseSize page (-1))
  CopyFirstFrom bpm recipient pair

end LeafPage

/-! ## Tree engine (`b_plus_tree.cpp`) -/

/-- The tree object together with the collaborators it talks to.  `layout` holds
the byte sizes `Init` reads, `roots` is the content of the header page and
`deleted_page_set` is the set kept by the transaction. -/
structure BPlusTree where
  index_id_ : Int
  root_page_id_ : Int
  buffer_pool_manager_ : BufferPoolManager
  leaf_max_size_ : Int
  internal_max_size_ : Int
  layout : PageLayout
  roots : List (Int × Int)
  deleted_page_set : List Int

namespace BPlusTree

/-- `BPlusTree::IsEmpty`, lines 28-31. -/
def IsEmpty (t : BPlusTree) : Bool :=
  if t.root_page_id_ = INVALID_PAGE_ID then true else false

/-- Modelled from the spec: `IndexRootsPage::Insert` appends a record to the header
page. -/
def rootsInsert (roots : List (Int × Int)) (index_id root_id : Int) : List (Int × Int) :=
  roots ++ [(index_id, root_id)]

/-- Modelled from the spec: `IndexRootsPage::Update` rewrites the record of the
index in place. -/
def rootsUpdate (roots : List (Int × Int)) (index_id root_id : Int) : List (Int × Int) :=
  roots.map (fun r => if r.1 = index_id then (index_id, root_id) else r)

/-- `BPlusTree::UpdateRootPageId`, lines 400-409.  The header page is pinned for
the duration of the call. -/
def UpdateRootPageId (t : BPlusTree) (insert_record : Int) : BPlusTree :=
  let pins := t.buffer_pool_manager_.pin_count
  let bpm := { t.buffer_pool_manager_ with
    pin_count := Function.update pins HEADER_PAGE_ID (pins HEADER_PAGE_ID + 1) }
  let roots :=
    if insert_record ≠ 0 then rootsInsert t.roots t.index_id_ t.root_page_id_
    else rootsUpdate t.roots t.index_id_ t.root_page_id_
  { t with buffer_pool_manager_ := UnpinPage bpm HEADER_PAGE_ID, roots := roots }

/-- The `for` loop of `FindLeafPage`, lines 377-387 (the source spells the loop
condition `!p->IsLeafPage()`).  `i` is the page `pointer` points at. -/
def FindLeafPage.loop (key : Int) (leftMost : Bool) :
    Nat → BufferPoolManager → Int → Option Int → Except Fault BufferPoolManager
  | 0, _, _, _ => Except.error Fault.outOfFuel
  | fuel + 1, bpm, i, pointer => do
    let page ← deref bpm pointer
    if ¬ IsLeafPage page then
      let next ←
        if leftMost then pure (InternalPage.ValueAt page 0)
        else InternalPage.Lookup (fuel + 1) page key
      let bpm := UnpinPage bpm i
      let (pointer, bpm) := FetchPage bpm next
      FindLeafPage.loop key leftMost fuel bpm next pointer
    else pure bpm

/-- `BPlusTree::FindLeafPage`, lines 372-389.  The function returns `nullptr` on
every path: on line 388 after the loop has reached (and left pinned) a leaf, and
on line 373 for the empty tree. -/
def FindLeafPage (fuel : Nat) (t : BPlusTree) (key : Int) (leftMost : Bool) :
    Except Fault (Option Int × BPlusTree) :=
  if IsEmpty t then Except.ok (none, t)
  else do
    let (pointer, bpm) := FetchPage t.buffer_pool_manager_ t.root_page_id_
    let bpm ← FindLeafPage.loop key leftMost fuel bpm t.root_page_id_ pointer
    pure (none, { t with buffer_pool_manager_ := bpm })

/-- The effect of `result.resize(1)` on a `std::vector<int>`. -/
def resize1 (result : List Int) : List Int :=
  match result with
  | [] => [0]
  | x :: _ => [x]

/-- `BPlusTree::GetValue`, lines 42-49.  Returns the flag, the vector `result` and
the tree. -/
def GetValue (fuel : Nat) (t : BPlusTree) (key : Int) (result : List Int) :
    Except Fault (Bool × List Int × BPlusTree) := do
  let (target, t) ← FindLeafPage fuel t key false
  match target with
  | none => pure (false, result, t)
  | some target =>
    let result := resize1 result
    let page ← deref t.buffer_pool_manager_ (some target)
    let (suc, v) ← LeafPage.Lookup page key (result.headD 0)
    let t := { t with buffer_pool_manager_ := UnpinPage t.buffer_pool_manager_ (GetPageId page) }
    pure (suc, [v], t)

/-- `BPlusTree::StartNewTree`, lines 77-87. -/
def StartNewTree (t : BPlusTree) (key value : Int) : Except Fault BPlusTree := do
  let (new_page_id, bpm) := NewPage t.buffer_pool_manager_
  let root ← deref bpm (some new_page_id)
  let bpm := store bpm new_page_id (LeafPage.Init t.layout root new_page_id INVALID_PAGE_ID)
  let t := { t with buffer_pool_manager_ := bpm, root_page_id_ := new_page_id }
  let t := UpdateRootPageId t 1
  let root ← deref t.buffer_pool_manager_ (some new_page_id)
  let (_, root) ← LeafPage.Insert root key value
  let bpm := store t.buffer_pool_manager_ new_page_id root
  pure { t with buffer_pool_manager_ := UnpinPage bpm new_page_id }

/-- `BPlusTree::Split`, lines 124-132, for `N` the leaf or the internal page type.
Returns the pointer to the new page, which is left pinned. -/
def Split (N : IndexPageType) (t : BPlusTree) (node : Int) : Except Fault (Int × BPlusTree) := do
  let (newpageID, bpm) := NewPage t.buffer_pool_manager_
  let newNode ← deref bpm (some newpageID)
  let page ← deref bpm (some node)
  if N = IndexPageType.LEAF_PAGE then
    let bpm := store bpm newpageID
      (LeafPage.Init t.layout newNode newpageID (GetParentPageId page))
    let page ← deref bpm (some node)
    let newNode ← deref bpm (some newpageID)
    let (page, newNode) := LeafPage.MoveHalfTo page newNode
    let bpm := store (store bpm node page) newpageID newNode
    pure (newpageID, { t with buffer_pool_manager_ := bpm })
  else
    let bpm := store bpm newpageID
      (InternalPage.Init t.layout newNode newpageID (GetParentPageId page))
    let bpm ← InternalPage.MoveHalfTo bpm node newpageID
    pure (newpageID, { t with buffer_pool_manager_ := bpm })

/-- `BPlusTree::InsertIntoParent`, lines 144-165.  `Init(root_page_id_)` takes the
declared default `INVALID_PAGE_ID` for the parent.  Lines 161-162 of the source
are cut short (`newleaf` has no initialiser and `new_page` is not declared); they
are read as `newleaf = Split(parent)` followed by the recursive call on
`newleaf`. -/
def InsertIntoParent : Nat → BPlusTree → Int → Int → Int → Except Fault BPlusTree
  | 0, _, _, _, _ => Except.error Fault.outOfFuel
  | fuel + 1, t, old_node, key, new_node => do
    let old_page ← deref t.buffer_pool_manager_ (some old_node)
    if IsRootPage old_page then
      let (root_id, bpm) := NewPage t.buffer_pool_manager_
      let t := { t with buffer_pool_manager_ := bpm, root_page_id_ := root_id }
      let newRoot ← deref bpm (some root_id)
      let newRoot := InternalPage.Init t.layout newRoot t.root_page_id_ INVALID_PAGE_ID
      let bpm := store bpm root_id newRoot
      let old_page ← deref bpm (some old_node)
      let new_page ← deref bpm (some new_node)
      let newRoot := InternalPage.PopulateNewRoot newRoot (GetPageId old_page) key
        (GetPageId new_page)
      let bpm := store bpm root_id newRoot
      let old_page ← deref bpm (some old_node)
      let bpm := store bpm old_node (SetParentPageId old_page t.root_page_id_)
      let new_page ← deref bpm (some new_node)
      let bpm := store bpm new_node (SetParentPageId new_page t.root_page_id_)
      let t := UpdateRootPageId { t with buffer_pool_manager_ := bpm } 0
      let newRoot ← deref t.buffer_pool_manager_ (some root_id)
      pure { t with
        buffer_pool_manager_ := UnpinPage t.buffer_pool_manager_ (GetPageId newRoot) }
    else
      let parentID := GetParentPageId old_page
      let (parent, bpm) := FetchPage t.buffer_pool_manager_ parentID
      let _ ← deref bpm parent
      let new_page ← deref bpm (some new_node)
      let bpm := store bpm new_node (SetParentPageId new_page parentID)
      let parent_page ← deref bpm parent
      let old_page ← deref bpm (some old_node)
      let new_page ← deref bpm (some new_node)
      let (_, parent_page) ← InternalPage.InsertNodeAfter parent_page (GetPageId old_page) key
        (GetPageId new_page)
      let bpm := store bpm parentID parent_page
      let t := { t with buffer_pool_manager_ := bpm }
      if GetSize parent_page > GetMaxSize parent_page then
        let (newleaf, t) ← Split IndexPageType.INTERNAL_PAGE t parentID
        let newleaf_page ← deref t.buffer_pool_manager_ (some newleaf)
        let t ← InsertIntoParent fuel t parentID (InternalPage.KeyAt newleaf_page 0) newleaf
        pure { t with buffer_pool_manager_ := UnpinPage t.buffer_pool_manager_ parentID }
      else
        pure { t with buffer_pool_manager_ := UnpinPage t.buffer_pool_manager_ parentID }

/-- `BPlusTree::InsertIntoLeaf`, lines 98-113.  `leaf` is the pointer returned by
`FindLeafPage`; line 101 calls `leaf->Lookup` without a null check. -/
def InsertIntoLeaf (fuel : Nat) (t : BPlusTree) (key value : Int) :
    Except Fault (Bool × BPlusTree) := do
  let (leaf, t) ← FindLeafPage fuel t key false
  match leaf with
  | none => Except.error Fault.nullDeref
  | some leaf =>
    let page ← deref t.buffer_pool_manager_ (some leaf)
    let (exist_in_parent, _) ← LeafPage.Lookup page key 0
    if exist_in_parent then
      pure (false,
        { t with buffer_pool_manager_ := UnpinPage t.buffer_pool_manager_ (GetPageId page) })
    else
      let (_, page) ← LeafPage.Insert page key value
      let t := { t with buffer_pool_manager_ := store t.buffer_pool_manager_ leaf page }
      if GetSize page > GetMaxSize page then
        let (newleaf, t) ← Split IndexPageType.LEAF_PAGE t leaf
        let newleaf_page ← deref t.buffer_pool_manager_ (some newleaf)
        let t ← InsertIntoParent fuel t leaf (LeafPage.KeyAt newleaf_page 0) newleaf
        let page ← deref t.buffer_pool_manager_ (some leaf)
        pure (true,
          { t with buffer_pool_manager_ := UnpinPage t.buffer_pool_manager_ (GetPageId page) })
      else
        pure (true,
          { t with buffer_pool_manager_ := UnpinPage t.buffer_pool_manager_ (GetPageId page) })

/-- `BPlusTree::Insert`, lines 62-69.  The source returns the undeclared name `res`;
the only flag in scope is `suc`, the result of `InsertIntoLeaf`, which is what is
returned here. -/
def Insert (fuel : Nat) (t : BPlusTree) (key value : Int) : Except Fault (Bool × BPlusTree) :=
  if IsEmpty t then do
    let t ← StartNewTree t key value
    pure (true, t)
  else do
    let (suc, t) ← InsertIntoLeaf fuel t key value
    pure (suc, t)

/-- `BPlusTree::AdjustRoot`, lines 295-313. -/
def AdjustRoot (t : BPlusTree) (old_root_node : Int) : Except Fault (Bool × BPlusTree) := do
  let old_root ← deref t.buffer_pool_manager_ (some old_root_node)
  if IsLeafPage old_root then
    let t := { t with root_page_id_ := INVALID_PAGE_ID }
    pure (true, UpdateRootPageId t 0)
  else if GetSize old_root = 1 then
    let (newRoot, old_root) ← InternalPage.RemoveAndReturnOnlyChild old_root
    let t := { t with
      buffer_pool_manager_ := store t.buffer_pool_manager_ old_root_node old_root,
      root_page_id_ := newRoot }
    let t := UpdateRootPageId t 0
    let (page, bpm) := FetchPage t.buffer_pool_manager_ newRoot
    let newRootPage ← deref bpm page
    let bpm := store bpm newRoot (SetParentPageId newRootPage INVALID_PAGE_ID)
    pure (true, { t with buffer_pool_manager_ := UnpinPage bpm newRoot })
  else
    pure (false, t)

/-- `FindbrotherPage`, lines 221-239.  Returns the pointer to the sibling, which
has already been unpinned again. -/
def FindbrotherPage (t : BPlusTree) (node : Int) : Except Fault (Int × BPlusTree) := do
  let node_page ← deref t.buffer_pool_manager_ (some node)
  let (parentPage, bpm) := FetchPage t.buffer_pool_manager_ (GetParentPageId node_page)
  let parent ← deref bpm parentPage
  let index := InternalPage.ValueIndex parent (GetPageId node_page)
  let brother_index := if index = 0 then 1 else index - 1
  let (page, bpm) := FetchPage bpm (InternalPage.ValueAt parent brother_index)
  let _ ← deref bpm page
  let bpm := UnpinPage bpm (InternalPage.ValueAt parent brother_index)
  let bpm := UnpinPage bpm (GetPageId parent)
  pure (InternalPage.ValueAt parent brother_index, { t with buffer_pool_manager_ := bpm })

/-- `BPlusTree::Redistribute`, lines 276-282, for `N` the leaf or the internal page
type. -/
def Redistribute (N : IndexPageType) (t : BPlusTree) (neighbor_node node : Int) (index : Int) :
    Except Fault BPlusTree := do
  let bpm ←
    if index = 0 then
      if N = IndexPageType.LEAF_PAGE then
        LeafPage.MoveFirstToEndOf t.buffer_pool_manager_ neighbor_node node
      else InternalPage.MoveFirstToEndOf t.buffer_pool_manager_ neighbor_node node
    else
      if N = IndexPageType.LEAF_PAGE then
        LeafPage.MoveLastToFrontOf t.buffer_pool_manager_ neighbor_node node
      else InternalPage.MoveLastToFrontOf t.buffer_pool_manager_ neighbor_node node
  pure { t with buffer_pool_manager_ := bpm }

mutual

/-- `BPlusTree::CoalesceOrRedistribute`, lines 198-219, for `N` the leaf or the
internal page type. -/
def CoalesceOrRedistribute (N : IndexPageType) :
    Nat → BPlusTree → Int → Except Fault (Bool × BPlusTree)
  | 0, _, _ => Except.error Fault.outOfFuel
  | fuel + 1, t, node => do
    let node_page ← deref t.buffer_pool_manager_ (some node)
    if IsRootPage node_page then
      let (if_deleted, t) ← AdjustRoot t node
      let node_page ← deref t.buffer_pool_manager_ (some node)
      if if_deleted then
        pure (if_deleted,
          { t with deleted_page_set := t.deleted_page_set ++ [GetPageId node_page] })
      else pure (if_deleted, t)
    else
      let (brotherPage, t) ← FindbrotherPage t node
      let node_page ← deref t.buffer_pool_manager_ (some node)
      let (parentPage, bpm) := FetchPage t.buffer_pool_manager_ (GetParentPageId node_page)
      let parent ← deref bpm parentPage
      let t := { t with buffer_pool_manager_ := bpm }
      let index_in_parent := InternalPage.ValueIndex parent (GetPageId node_page)
      let brother ← deref bpm (some brotherPage)
      if GetSize node_page + GetSize brother ≤ GetMaxSize node_page then
        let (_, t) ← Coalesce N fuel t brotherPage node (GetParentPageId node_page)
          index_in_parent
        let parent ← deref t.buffer_pool_manager_ parentPage
        pure (true,
          { t with buffer_pool_manager_ := UnpinPage t.buffer_pool_manager_ (GetPageId parent) })
      else
        let t ← Redistribute N t brotherPage node index_in_parent
        let parent ← deref t.buffer_pool_manager_ parentPage
        pure (false,
          { t with buffer_pool_manager_ := UnpinPage t.buffer_pool_manager_ (GetPageId parent) })

/-- `BPlusTree::Coalesce`, lines 255-263, for `N` the leaf or the internal page
type. -/
def Coalesce (N : IndexPageType) :
    Nat → BPlusTree → Int → Int → Int → Int → Except Fault (Bool × BPlusTree)
  | 0, _, _, _, _, _ => Except.error Fault.outOfFuel
  | fuel + 1, t, neighbor_node, node, parent, index => do
    let bpm ←
      if N = IndexPageType.LEAF_PAGE then do
        let node_page ← deref t.buffer_pool_manager_ (some node)
        let neighbor_page ← deref t.buffer_pool_manager_ (some neighbor_node)
        let (node_page, neighbor_page) := LeafPage.MoveAllTo node_page neighbor_page
        pure (store (store t.buffer_pool_manager_ node node_page) neighbor_node neighbor_page)
      else InternalPage.MoveAllTo t.buffer_pool_manager_ node neighbor_node
    let node_page ← deref bpm (some node)
    let t := { t with
      buffer_pool_manager_ := bpm,
      deleted_page_set := t.deleted_page_set ++ [GetPageId node_page] }
    let parent_page ← deref t.buffer_pool_manager_ (some parent)
    let parent_page ← InternalPage.Remove parent_page index
    let t := { t with buffer_pool_manager_ := store t.buffer_pool_manager_ parent parent_page }
    if GetSize parent_page ≤ GetMinSize parent_page then
      CoalesceOrRedistribute IndexPageType.INTERNAL_PAGE fuel t parent
    else
      pure (false, t)

end

/-- `BPlusTree::Remove`, lines 178-187.  `leaf_target` is the pointer returned by
`FindLeafPage`; line 181 calls `leaf_target->RemoveAndDeleteRecord` without a null
check. -/
def Remove (fuel : Nat) (t : BPlusTree) (key : Int) : Except Fault BPlusTree :=
  if IsEmpty t then Except.ok t
  else do
    let (leaf_target, t) ← FindLeafPage fuel t key false
    match leaf_target with
    | none => Except.error Fault.nullDeref
    | some leaf_target =>
      let page ← deref t.buffer_pool_manager_ (some leaf_target)
      let (size_after_delete, page) ← LeafPage.RemoveAndDeleteRecord page key
      let t := { t with buffer_pool_manager_ := store t.buffer_pool_manager_ leaf_target page }
      if size_after_delete < GetMinSize page then
        let (_, t) ← CoalesceOrRedistribute IndexPageType.LEAF_PAGE fuel t leaf_target
        let page ← deref t.buffer_pool_manager_ (some leaf_target)
        pure { t with buffer_pool_manager_ := UnpinPage t.buffer_pool_manager_ (GetPageId page) }
      else
        pure { t with buffer_pool_manager_ := UnpinPage t.buffer_pool_manager_ (GetPageId page) }

/-- A page layout whose derived fan-out cap is 4 for both page kinds, as in the
concrete scenarios of the spec. -/
def layout4 : PageLayout :=
  { PAGE_SIZE := 68, sizeof_leaf_page := 28, sizeof_internal_page := 24, sizeof_mapping := 8 }

/-- An empty tree over an empty buffer pool in which nothing is pinned. -/
def emptyTree4 : BPlusTree :=
  { index_id_ := 0, root_page_id_ := INVALID_PAGE_ID,
    buffer_pool_manager_ := { frames := fun _ => none, pin_count := fun _ => 0, next_page_id := 1 },
    leaf_max_size_ := 4, internal_max_size_ := 4, layout := layout4, roots := [],
    deleted_page_set := [] }

/-- The tree component of a result, or the given tree when the run faulted. -/
def treeOf {α : Type} (r : Except Fault (α × BPlusTree)) (t : BPlusTree) : BPlusTree :=
  match r with
  | Except.ok (_, t1) => t1
  | Except.error _ => t

/-- The state reached from `emptyTree4` by `Insert(5, 50)`: a single root leaf,
page 1, holding `[(5, 50)]`, nothing pinned. -/
def treeWith5 : BPlusTree := treeOf (Insert 1 emptyTree4 5 50) emptyTree4

end BPlusTree

/-! ## Concrete pages used in the evaluations below -/

/-- An internal page with two children: slot 0 names page 7, slot 1 is `(10, 8)`. -/
def internal_7_8 : BPlusTreePage := internalOf 3 INVALID_PAGE_ID 4 [(0, 7), (10, 8)]

/-- An internal page with the single child 7. -/
def internal_7 : BPlusTreePage := internalOf 3 INVALID_PAGE_ID 4 [(0, 7)]

/-- An internal page of size 3 with keys `(dummy, 10, 20)`. -/
def internal_10_20 : BPlusTreePage := internalOf 3 INVALID_PAGE_ID 4 [(0, 1), (10, 2), (20, 5)]

/-- An internal page of size 4 with keys `(dummy, 10, 20, 30)`. -/
def internal_10_20_30 : BPlusTreePage :=
  internalOf 3 INVALID_PAGE_ID 4 [(0, 1), (10, 2), (20, 5), (30, 6)]

/-- A leaf with cap 4 holding two entries. -/
def leaf_1_2 : BPlusTreePage := leafOf 1 INVALID_PAGE_ID 4 [(1, 10), (2, 20)]

/-- A leaf with cap 4 holding five entries, one more than the cap. -/
def leaf_1_to_5 : BPlusTreePage :=
  leafOf 1 INVALID_PAGE_ID 4 [(1, 10), (2, 20), (3, 30), (4, 40), (5, 50)]

/-- A leaf with cap 4 holding two entries, whose next page is 9. -/
def leaf_5_6 : BPlusTreePage :=
  { leafOf 2 INVALID_PAGE_ID 4 [(5, 50), (6, 60)] with next_page_id_ := 9 }

/-- An empty leaf with cap 4. -/
def leaf_empty : BPlusTreePage := leafOf 2 INVALID_PAGE_ID 4 []

/-- Two internal siblings under a common parent: parent 3 holds `[(_, 1), (10, 2)]`,
the left sibling 1 holds `[(_, 11), (5, 12)]`, the right sibling 2 holds
`[(_, 13), (15, 14)]`, and 11 to 14 are leaves. -/
def poolTwoInternal : BufferPoolManager :=
  poolOf
    [(3, internalOf 3 INVALID_PAGE_ID 4 [(0, 1), (10, 2)]),
     (1, internalOf 1 3 4 [(0, 11), (5, 12)]),
     (2, internalOf 2 3 4 [(0, 13), (15, 14)]),
     (11, leafOf 11 1 4 [(1, 1), (2, 2)]),
     (12, leafOf 12 1 4 [(5, 5), (6, 6)]),
     (13, leafOf 13 2 4 [(10, 10), (11, 11)]),
     (14, leafOf 14 2 4 [(15, 15), (16, 16)])]
    15


/-- Two leaf siblings under a common parent whose separator for the right leaf is
stale: parent 3 holds `[(_, 1), (5, 2)]`, the left leaf 1 holds keys 1 to 4 and the
right leaf 2 holds `[(6, 60)]` (key 5 has been removed from it). -/
def poolTwoLeaves : BufferPoolManager :=
  poolOf
    [(3, internalOf 3 INVALID_PAGE_ID 4 [(0, 1), (5, 2)]),
     (1, { leafOf 1 3 4 [(1, 10), (2, 20), (3, 30), (4, 40)] with next_page_id_ := 2 }),
     (2, leafOf 2 3 4 [(6, 60)])]
    4

/-- As `poolTwoInternal`, but the right sibling 2 has three children:
`[(_, 13), (15, 14), (17, 15)]`. -/
def poolTwoInternalB : BufferPoolManager :=
  poolOf
    [(3, internalOf 3 INVALID_PAGE_ID 4 [(0, 1), (10, 2)]),
     (1, internalOf 1 3 4 [(0, 11), (5, 12)]),
     (2, internalOf 2 3 4 [(0, 13), (15, 14), (17, 15)]),
     (11, leafOf 11 1 4 [(1, 1), (2, 2)]),
     (12, leafOf 12 1 4 [(5, 5), (6, 6)]),
     (13, leafOf 13 2 4 [(10, 10), (11, 11)]),
     (14, leafOf 14 2 4 [(15, 15), (16, 16)]),
     (15, leafOf 15 2 4 [(17, 17), (18, 18)])]
    16

/-- The internal page 2 of `poolInternalSplit`, holding three children. -/
def internal_13_14_15 : BPlusTreePage :=
  internalOf 2 3 4 [(0, 13), (15, 14), (17, 15)]

/-- A freshly initialised internal page 16 under parent 3: size 0. -/
def internal_fresh_16 : BPlusTreePage :=
  InternalPage.Init BPlusTree.layout4 zeroedFrame 16 3

/-- The pool `poolTwoInternalB` after a new, empty internal page 16 was allocated
as the recipient of a split of page 2. -/
def poolInternalSplit : BufferPoolManager :=
  poolOf
    [(3, internalOf 3 INVALID_PAGE_ID 4 [(0, 1), (10, 2)]),
     (1, internalOf 1 3 4 [(0, 11), (5, 12)]),
     (2, internal_13_14_15),
     (11, leafOf 11 1 4 [(1, 1), (2, 2)]),
     (12, leafOf 12 1 4 [(5, 5), (6, 6)]),
     (13, leafOf 13 2 4 [(10, 10), (11, 11)]),
     (14, leafOf 14 2 4 [(15, 15), (16, 16)]),
     (15, leafOf 15 2 4 [(17, 17), (18, 18)]),
     (16, internal_fresh_16)]
    17

/-- The left half of a split root leaf: page 1, still without a parent. -/
def leaf_split_left : BPlusTreePage :=
  { leafOf 1 INVALID_PAGE_ID 4 [(1, 10), (2, 20)] with next_page_id_ := 2 }

/-- The right half of a split root leaf: page 2. -/
def leaf_split_right : BPlusTreePage :=
  leafOf 2 INVALID_PAGE_ID 4 [(3, 30), (4, 40), (5, 50)]

/-- Two leaf siblings under a common parent: parent 3 holds `[(_, 1), (5, 2)]`, the
left leaf 1 holds `[(1, 10), (2, 20)]` and the right leaf 2 holds keys 5 to 8. -/
def poolLeavesRightFull : BufferPoolManager :=
  poolOf
    [(3, internalOf 3 INVALID_PAGE_ID 4 [(0, 1), (5, 2)]),
     (1, { leafOf 1 3 4 [(1, 10), (2, 20)] with next_page_id_ := 2 }),
     (2, leafOf 2 3 4 [(5, 50), (6, 60), (7, 70), (8, 80)])]
    4

namespace BPlusTree

/-- A tree whose root, page 3, is an internal page with the single child 1. -/
def treeInternalRoot1 : BPlusTree :=
  { emptyTree4 with
    root_page_id_ := 3
    buffer_pool_manager_ :=
      poolOf
        [(3, internalOf 3 INVALID_PAGE_ID 4 [(0, 1)]),
         (1, leafOf 1 3 4 [(1, 10), (2, 20)])]
        4 }

/-- A tree whose root, page 3, is an internal page with the two children of
`poolTwoInternal`. -/
def treeInternalRoot2 : BPlusTree :=
  { emptyTree4 with
    root_page_id_ := 3
    buffer_pool_manager_ := poolTwoInternal }

/-- The state in the middle of the first split: the old root leaf 1 and the new leaf
2 exist, neither has a parent yet, and `root_page_id_` still names page 1. -/
def treeSplitLeaves : BPlusTree :=
  { emptyTree4 with
    root_page_id_ := 1
    buffer_pool_manager_ := poolOf [(1, leaf_split_left), (2, leaf_split_right)] 3 }

/-- A tree whose root, page 3, holds `[(_, 1), (10, 2), (20, 4)]`; the leftmost child
is the leaf 1 `[(1, 10)]`, its right neighbour is the leaf 2
`[(10, 100), (11, 110)]`. -/
def treeLeafLeftmost : BPlusTree :=
  { emptyTree4 with
    root_page_id_ := 3
    buffer_pool_manager_ :=
      poolOf
        [(3, internalOf 3 INVALID_PAGE_ID 4 [(0, 1), (10, 2), (20, 4)]),
         (1, { leafOf 1 3 4 [(1, 10)] with next_page_id_ := 2 }),
         (2, { leafOf 2 3 4 [(10, 100), (11, 110)] with next_page_id_ := 4 }),
         (4, leafOf 4 3 4 [(20, 200), (21, 210)])]
        5 }

/-- The two leaves of `poolLeavesRightFull` under their parent, the root 3. -/
def treeLeavesRightFull : BPlusTree :=
  { emptyTree4 with
    root_page_id_ := 3
    buffer_pool_manager_ := poolLeavesRightFull }

/-- The two leaves of `poolTwoLeaves` under their parent, the root 3. -/
def treeTwoLeaves : BPlusTree :=
  { emptyTree4 with
    root_page_id_ := 3
    buffer_pool_manager_ := poolTwoLeaves }

/-- A tree of height 3 in which the leaf 14 has just lost an entry: the root, page
3, holds `[(_, 1), (10, 2), (20, 4), (30, 5)]`; the internal page 2 holds
`[(_, 13), (15, 14), (17, 19)]`, one more than its minimum size 2, and the
internal pages 1, 4 and 5 hold two children each; the leaf 14 holds `[(15, 15)]`
and every other leaf two entries. -/
def treeParentAboveMin : BPlusTree :=
  { emptyTree4 with
    root_page_id_ := 3
    buffer_pool_manager_ :=
      poolOf
        [(3, internalOf 3 INVALID_PAGE_ID 4 [(0, 1), (10, 2), (20, 4), (30, 5)]),
         (1, internalOf 1 3 4 [(0, 11), (5, 12)]),
         (2, internalOf 2 3 4 [(0, 13), (15, 14), (17, 19)]),
         (4, internalOf 4 3 4 [(0, 15), (25, 16)]),
         (5, internalOf 5 3 4 [(0, 17), (35, 18)]),
         (11, { leafOf 11 1 4 [(1, 1), (2, 2)] with next_page_id_ := 12 }),
         (12, { leafOf 12 1 4 [(5, 5), (6, 6)] with next_page_id_ := 13 }),
         (13, { leafOf 13 2 4 [(10, 10), (11, 11)] with next_page_id_ := 14 }),
         (14, { leafOf 14 2 4 [(15, 15)] with next_page_id_ := 19 }),
         (19, { leafOf 19 2 4 [(17, 17), (18, 18)] with next_page_id_ := 15 }),
         (15, { leafOf 15 4 4 [(20, 20), (21, 21)] with next_page_id_ := 16 }),
         (16, { leafOf 16 4 4 [(25, 25), (26, 26)] with next_page_id_ := 17 }),
         (17, { leafOf 17 5 4 [(30, 30), (31, 31)] with next_page_id_ := 18 }),
         (18, leafOf 18 5 4 [(35, 35), (36, 36)])]
        20 }

end BPlusTree

/-! ## Theorems -/

/-! ### Comparator, entry lists and sortedness -/

theorem comparator_eq_zero (a b : Int) : comparator a b = 0 ↔ a = b := by
  unfold comparator
  split_ifs with h1 h2
  · simp; omega
  · simp [h2]
  · simp [h2]

theorem comparator_ge_zero (a b : Int) : comparator a b ≥ 0 ↔ b ≤ a := by
  unfold comparator
  split_ifs with h1 h2
  · simp; omega
  · simp [h2]
  · simp; omega

theorem comparator_lt_zero (a b : Int) : comparator a b < 0 ↔ a < b := by
  unfold comparator
  split_ifs with h1 h2
  · simp [h1]
  · simp [h2]
  · simp; omega

theorem entries_length (p : BPlusTreePage) : (entries p).length = p.size_.toNat := by
  simp [entries]

theorem entries_getElem (p : BPlusTreePage) (i : Nat) (h : i < (entries p).length) :
    (entries p)[i] = p.array_ (i : Int) := by
  simp [entries]

/-- Index form of `StrictAsc`. -/
theorem StrictAsc.lt {p : BPlusTreePage} (hp : StrictAsc p) {i j : Int}
    (hi : 0 ≤ i) (hij : i < j) (hj : j < p.size_) : (p.array_ i).1 < (p.array_ j).1 := by
  unfold StrictAsc at hp
  rw [List.pairwise_iff_getElem] at hp
  have h1 : i.toNat < ((entries p).map Prod.fst).length := by
    simp [entries_length]; omega
  have h2 : j.toNat < ((entries p).map Prod.fst).length := by
    simp [entries_length]; omega
  have := hp i.toNat j.toNat h1 h2 (by omega)
  simp only [List.getElem_map, entries_getElem] at this
  have e1 : ((i.toNat : Nat) : Int) = i := by omega
  have e2 : ((j.toNat : Nat) : Int) = j := by omega
  rwa [e1, e2] at this

theorem StrictAsc.le {p : BPlusTreePage} (hp : StrictAsc p) {i j : Int}
    (hi : 0 ≤ i) (hij : i ≤ j) (hj : j < p.size_) : (p.array_ i).1 ≤ (p.array_ j).1 := by
  rcases eq_or_lt_of_le hij with h | h
  · subst h; exact le_refl _
  · exact le_of_lt (hp.lt hi h hj)

/-- Index form implies `StrictAsc`. -/
theorem StrictAsc.of_lt {p : BPlusTreePage}
    (h : ∀ i j : Int, 0 ≤ i → i < j → j < p.size_ → (p.array_ i).1 < (p.array_ j).1) :
    StrictAsc p := by
  unfold StrictAsc
  rw [List.pairwise_iff_getElem]
  intro i j hi hj hij
  simp only [List.getElem_map, entries_getElem]
  simp [entries_length] at hi hj
  exact h i j (by omega) (by omega) (by omega)

theorem mem_entries_iff (p : BPlusTreePage) (e : MappingType) :
    e ∈ entries p ↔ ∃ j : Int, 0 ≤ j ∧ j < p.size_ ∧ p.array_ j = e := by
  simp only [entries, List.mem_map, List.mem_range]
  constructor
  · rintro ⟨n, hn, rfl⟩
    exact ⟨n, by omega, by omega, rfl⟩
  · rintro ⟨j, h0, h1, rfl⟩
    exact ⟨j.toNat, by omega, by rw [Int.toNat_of_nonneg h0]⟩

/-- The right shift by one cell performed by `for (i = hi; i > lo; i--) a[i] = a[i-1]`. -/
theorem forDown_shift (a0 : Int → MappingType) (hi lo : Int) :
    forDown hi lo (fun i a => Function.update a i (a (i - 1))) a0 =
      fun j => if lo < j ∧ j ≤ hi then a0 (j - 1) else a0 j := by
  have key : ∀ n : Nat,
      (List.range n).foldl (fun acc (j : Nat) => Function.update acc (hi - (j : Int))
        (acc (hi - (j : Int) - 1))) a0 =
        fun j => if hi - (n : Int) < j ∧ j ≤ hi then a0 (j - 1) else a0 j := by
    intro n
    induction n with
    | zero =>
      funext j
      have : ¬ (hi < j ∧ j ≤ hi) := by
        intro h; have := h.1; have := h.2; omega
      simp only [List.range_zero, List.foldl_nil, Nat.cast_zero, sub_zero]
      rw [if_neg this]
    | succ n ih =>
      rw [List.range_succ, List.foldl_append, ih]
      funext j
      simp only [List.foldl_cons, List.foldl_nil, Function.update_apply]
      have hne : ¬ (hi - (n : Int) < hi - (n : Int) - 1 ∧ hi - (n : Int) - 1 ≤ hi) := by
        intro h; have := h.1; omega
      rw [if_neg hne]
      by_cases hj : j = hi - (n : Int)
      · subst hj
        have : (hi - ((n + 1 : Nat) : Int) < hi - (n : Int) ∧ hi - (n : Int) ≤ hi) := by
          constructor <;> omega
        rw [if_pos rfl, if_pos this]
      · rw [if_neg hj]
        by_cases hc : hi - (n : Int) < j ∧ j ≤ hi
        · have : (hi - ((n + 1 : Nat) : Int) < j ∧ j ≤ hi) := ⟨by omega, hc.2⟩
          rw [if_pos hc, if_pos this]
        · have : ¬ (hi - ((n + 1 : Nat) : Int) < j ∧ j ≤ hi) := by
            intro h; apply hc; exact ⟨by omega, h.2⟩
          rw [if_neg hc, if_neg this]
  unfold forDown
  beta_reduce
  rw [key]
  funext j
  by_cases hc : lo < j ∧ j ≤ hi
  · have : hi - ((hi - lo).toNat : Int) < j ∧ j ≤ hi := ⟨by omega, hc.2⟩
    rw [if_pos hc, if_pos this]
  · have : ¬ (hi - ((hi - lo).toNat : Int) < j ∧ j ≤ hi) := by
      intro h; apply hc; exact ⟨by omega, h.2⟩
    rw [if_neg hc, if_neg this]

theorem getElem?_take_cons_drop {α : Type} (l : List α) (x : α) (m n : Nat)
    (hm : m ≤ l.length) :
    (l.take m ++ x :: l.drop m)[n]? =
      if n < m then l[n]? else if n = m then some x else l[n - 1]? := by
  have hlen : (l.take m).length = m := by simp [hm]
  by_cases h1 : n < m
  · rw [if_pos h1, List.getElem?_append_left (by omega), List.getElem?_take_of_lt h1]
  · rw [if_neg h1, List.getElem?_append_right (by omega), hlen]
    by_cases h2 : n = m
    · subst h2
      rw [if_pos rfl, Nat.sub_self, List.getElem?_cons_zero]
    · rw [if_neg h2]
      obtain ⟨d, hd⟩ : ∃ d, n - m = d + 1 := ⟨n - m - 1, by omega⟩
      rw [hd, List.getElem?_cons_succ, List.getElem?_drop]
      congr 1
      omega

/-- The block copy performed by `for (i = lo; i < hi; i++) a[i + d] = src[i]`. -/
theorem forUp_copy (src a0 : Int → MappingType) (lo hi d : Int) :
    forUp lo hi (fun i a => Function.update a (i + d) (src i)) a0 =
      fun j => if lo + d ≤ j ∧ j < hi + d then src (j - d) else a0 j := by
  have key : ∀ n : Nat,
      (List.range n).foldl (fun acc (j : Nat) => Function.update acc (lo + (j : Int) + d)
        (src (lo + (j : Int)))) a0 =
        fun j => if lo + d ≤ j ∧ j < lo + (n : Int) + d then src (j - d) else a0 j := by
    intro n
    induction n with
    | zero =>
      funext j
      have : ¬ (lo + d ≤ j ∧ j < lo + ((0 : Nat) : Int) + d) := by
        intro h; have := h.1; have := h.2; omega
      simp only [List.range_zero, List.foldl_nil]
      rw [if_neg this]
    | succ n ih =>
      rw [List.range_succ, List.foldl_append, ih]
      funext j
      simp only [List.foldl_cons, List.foldl_nil, Function.update_apply]
      by_cases hj : j = lo + (n : Int) + d
      · have c : lo + d ≤ j ∧ j < lo + ((n + 1 : Nat) : Int) + d := ⟨by omega, by omega⟩
        have e : j - d = lo + (n : Int) := by omega
        rw [if_pos hj, if_pos c, e]
      · rw [if_neg hj]
        by_cases hc : lo + d ≤ j ∧ j < lo + (n : Int) + d
        · have c : lo + d ≤ j ∧ j < lo + ((n + 1 : Nat) : Int) + d := ⟨hc.1, by omega⟩
          rw [if_pos hc, if_pos c]
        · have c : ¬ (lo + d ≤ j ∧ j < lo + ((n + 1 : Nat) : Int) + d) := by
            intro h; apply hc; exact ⟨h.1, by omega⟩
          rw [if_neg hc, if_neg c]
  unfold forUp
  beta_reduce
  rw [key]
  funext j
  by_cases hc : lo + d ≤ j ∧ j < hi + d
  · have c : lo + d ≤ j ∧ j < lo + ((hi - lo).toNat : Int) + d := ⟨hc.1, by omega⟩
    rw [if_pos hc, if_pos c]
  · have c : ¬ (lo + d ≤ j ∧ j < lo + ((hi - lo).toNat : Int) + d) := by
      intro h; apply hc; exact ⟨h.1, by omega⟩
    rw [if_neg hc, if_neg c]

theorem tdiv_two_mid (l r : Int) (hl : 0 ≤ l) (hlr : l ≤ r) :
    l ≤ Int.tdiv (l + r) 2 ∧ Int.tdiv (l + r) 2 ≤ r := by
  rw [Int.tdiv_eq_ediv (by omega : (0 : Int) ≤ l + r) (by omega : (0 : Int) ≤ 2)]
  omega

namespace LeafPage

theorem KeyIndex.loop_spec (p : BPlusTreePage) (k : Int) (hp : StrictAsc p) :
    ∀ (fuel : Nat) (l r : Int), 0 ≤ l → r < p.size_ → l ≤ r + 1 → (r - l + 1).toNat < fuel →
      (∀ j, 0 ≤ j → j < l → (p.array_ j).1 < k) →
      (∀ j, r < j → j < p.size_ → k ≤ (p.array_ j).1) →
      ∃ i, KeyIndex.loop p k fuel l r = Except.ok i ∧ l ≤ i ∧ i ≤ r + 1 ∧
        (∀ j, 0 ≤ j → j < i → (p.array_ j).1 < k) ∧
        (∀ j, i ≤ j → j < p.size_ → k ≤ (p.array_ j).1) := by
  intro fuel
  induction fuel with
  | zero => intro l r _ _ _ hf; omega
  | succ n ih =>
    intro l r hl hr hlr hf hlo hhi
    unfold KeyIndex.loop
    by_cases hc : l ≤ r
    · obtain ⟨hm1, hm2⟩ := tdiv_two_mid l r hl hc
      simp only [hc, if_true]
      by_cases hk : comparator (p.array_ (Int.tdiv (l + r) 2)).1 k ≥ 0
      · simp only [hk, if_true]
        have hk2 := (comparator_ge_zero _ _).1 hk
        obtain ⟨i, h1, h2, h3, h4, h5⟩ := ih l (Int.tdiv (l + r) 2 - 1) hl (by omega) (by omega)
          (by omega) hlo (by
            intro j hj1 hj2
            exact le_trans hk2 (hp.le (by omega) (by omega) hj2))
        exact ⟨i, h1, h2, by omega, h4, h5⟩
      · simp only [hk, if_false]
        have hk2 : (p.array_ (Int.tdiv (l + r) 2)).1 < k :=
          not_le.1 ((comparator_ge_zero (p.array_ (Int.tdiv (l + r) 2)).1 k).not.1 hk)
        obtain ⟨i, h1, h2, h3, h4, h5⟩ := ih (Int.tdiv (l + r) 2 + 1) r (by omega) hr (by omega)
          (by omega) (by
            intro j hj1 hj2
            exact lt_of_le_of_lt (hp.le hj1 (by omega) (by omega)) hk2) hhi
        exact ⟨i, h1, by omega, h3, h4, h5⟩
    · simp only [hc, if_false]
      refine ⟨r + 1, rfl, by omega, le_refl _, ?_, ?_⟩
      · intro j hj1 hj2; exact hlo j hj1 (by omega)
      · intro j hj1 hj2; exact hhi j (by omega) hj2

/-- The binary search of `KeyIndex` never runs out of fuel, sorted page or not. -/
theorem KeyIndex.loop_returns (p : BPlusTreePage) (k : Int) :
    ∀ (fuel : Nat) (l r : Int), 0 ≤ l → (r - l + 1).toNat < fuel →
      ∃ i, KeyIndex.loop p k fuel l r = Except.ok i := by
  intro fuel
  induction fuel with
  | zero => intro l r _ hf; omega
  | succ n ih =>
    intro l r hl hf
    unfold KeyIndex.loop
    by_cases hc : l ≤ r
    · obtain ⟨hm1, hm2⟩ := tdiv_two_mid l r hl hc
      simp only [hc, if_true]
      split_ifs
      · exact ih _ _ hl (by omega)
      · exact ih _ _ (by omega) (by omega)
    · simp only [hc, if_false]
      exact ⟨_, rfl⟩

theorem KeyIndex_returns (p : BPlusTreePage) (k : Int) :
    ∃ i, KeyIndex p k = Except.ok i := by
  unfold KeyIndex GetSize
  exact KeyIndex.loop_returns p k _ 0 _ (le_refl _) (by omega)

/-- What the binary search computes on a sorted page: the split point between the
keys below `k` and the keys at least `k`. -/
theorem KeyIndex_spec (p : BPlusTreePage) (k : Int) (hsize : 0 ≤ p.size_)
    (hp : StrictAsc p) :
    ∃ i, KeyIndex p k = Except.ok i ∧ 0 ≤ i ∧ i ≤ p.size_ ∧
      (∀ j, 0 ≤ j → j < i → (p.array_ j).1 < k) ∧
      (∀ j, i ≤ j → j < p.size_ → k ≤ (p.array_ j).1) := by
  obtain ⟨i, h1, h2, h3, h4, h5⟩ := KeyIndex.loop_spec p k hp ((GetSize p).toNat + 1) 0
    (GetSize p - 1) (le_refl _) (by unfold GetSize; omega) (by unfold GetSize; omega)
    (by unfold GetSize; omega) (by intro j a b; omega) (by intro j a b; unfold GetSize at a; omega)
  unfold GetSize at h3
  exact ⟨i, h1, h2, by omega, h4, h5⟩

/-- C8: on a leaf page whose keys are strictly ascending, `KeyIndex(k)` returns an
index `i` in `[0, size]`; when `i < size` the key at `i` is at least `k`; no index
below `i` holds a key at least `k` (so `i` is the smallest such index); and
`i = size` exactly when every key is below `k`. -/
theorem C8_leaf_KeyIndex (p : BPlusTreePage) (k : Int) (hsize : 0 ≤ p.size_)
    (hp : StrictAsc p) :
    ∃ i, KeyIndex p k = Except.ok i ∧ 0 ≤ i ∧ i ≤ p.size_ ∧
      (i < p.size_ → k ≤ (p.array_ i).1) ∧
      (∀ j, 0 ≤ j → j < p.size_ → k ≤ (p.array_ j).1 → i ≤ j) ∧
      (i = p.size_ ↔ ∀ j, 0 ≤ j → j < p.size_ → (p.array_ j).1 < k) := by
  obtain ⟨i, h1, h2, h3, h4, h5⟩ := KeyIndex_spec p k hsize hp
  refine ⟨i, h1, h2, h3, fun hi => h5 i (le_refl _) hi, ?_, ?_⟩
  · intro j hj1 hj2 hj3
    by_contra hcon
    have := h4 j hj1 (by omega)
    omega
  · constructor
    · intro hi j hj1 hj2
      exact h4 j hj1 (by omega)
    · intro hall
      by_contra hcon
      have h6 := h5 i (le_refl _) (by omega)
      have h7 := hall i h2 (by omega)
      omega

theorem C8_leaf_KeyIndex_witness :
    0 ≤ (leafOf 1 INVALID_PAGE_ID 4 [(1, 10), (3, 30), (5, 50)]).size_ ∧
    StrictAsc (leafOf 1 INVALID_PAGE_ID 4 [(1, 10), (3, 30), (5, 50)]) ∧
    ∃ i, KeyIndex (leafOf 1 INVALID_PAGE_ID 4 [(1, 10), (3, 30), (5, 50)]) 4 = Except.ok i ∧
      0 ≤ i ∧ i ≤ (leafOf 1 INVALID_PAGE_ID 4 [(1, 10), (3, 30), (5, 50)]).size_ ∧
      (i < (leafOf 1 INVALID_PAGE_ID 4 [(1, 10), (3, 30), (5, 50)]).size_ →
        4 ≤ ((leafOf 1 INVALID_PAGE_ID 4 [(1, 10), (3, 30), (5, 50)]).array_ i).1) ∧
      (∀ j, 0 ≤ j → j < (leafOf 1 INVALID_PAGE_ID 4 [(1, 10), (3, 30), (5, 50)]).size_ →
        4 ≤ ((leafOf 1 INVALID_PAGE_ID 4 [(1, 10), (3, 30), (5, 50)]).array_ j).1 → i ≤ j) ∧
      (i = (leafOf 1 INVALID_PAGE_ID 4 [(1, 10), (3, 30), (5, 50)]).size_ ↔
        ∀ j, 0 ≤ j → j < (leafOf 1 INVALID_PAGE_ID 4 [(1, 10), (3, 30), (5, 50)]).size_ →
          ((leafOf 1 INVALID_PAGE_ID 4 [(1, 10), (3, 30), (5, 50)]).array_ j).1 < 4) :=
  ⟨by decide, by decide, C8_leaf_KeyIndex _ 4 (by decide) (by decide)⟩

theorem Lookup_found (p : BPlusTreePage) (k v0 : Int) (hsize : 0 ≤ p.size_)
    (hp : StrictAsc p) (j : Int) (h0 : 0 ≤ j) (h1 : j < p.size_) (hk : (p.array_ j).1 = k) :
    Lookup p k v0 = Except.ok (true, (p.array_ j).2) := by
  obtain ⟨i, hi, hi0, hi1, hlo, hhi⟩ := KeyIndex_spec p k hsize hp
  have hij : i = j := by
    have a1 : i ≤ j := by
      by_contra hc
      have := hlo j h0 (by omega)
      omega
    have a2 : j ≤ i := by
      by_contra hc
      have b1 := hhi i (le_refl _) (by omega)
      have b2 := hp.lt hi0 (by omega : i < j) h1
      omega
    omega
  subst hij
  have hc : i < GetSize p ∧ comparator (p.array_ i).1 k = 0 :=
    ⟨h1, (comparator_eq_zero _ _).2 hk⟩
  simp only [Lookup, hi, bind, Except.bind, pure, Except.pure, if_pos hc]

theorem Lookup_absent (p : BPlusTreePage) (k v0 : Int) (hsize : 0 ≤ p.size_)
    (hp : StrictAsc p) (h : ∀ j, 0 ≤ j → j < p.size_ → (p.array_ j).1 ≠ k) :
    Lookup p k v0 = Except.ok (false, v0) := by
  obtain ⟨i, hi, hi0, hi1, hlo, hhi⟩ := KeyIndex_spec p k hsize hp
  have hc : ¬ (i < GetSize p ∧ comparator (p.array_ i).1 k = 0) := by
    rintro ⟨c1, c2⟩
    exact h i hi0 c1 ((comparator_eq_zero _ _).1 c2)
  simp only [Lookup, hi, bind, Except.bind, pure, Except.pure, if_neg hc]

/-- C9: on a leaf page with strictly ascending keys, `Lookup(k)` returns true with
the output set to `v` exactly when the entry `(k, v)` is stored in the page, and
returns false with the output left as it was when no entry has key `k`. -/
theorem C9_leaf_Lookup (p : BPlusTreePage) (k v0 : Int) (hsize : 0 ≤ p.size_)
    (hp : StrictAsc p) :
    (∀ v, (k, v) ∈ entries p ↔ Lookup p k v0 = Except.ok (true, v)) ∧
    ((∀ v, (k, v) ∉ entries p) → Lookup p k v0 = Except.ok (false, v0)) := by
  refine ⟨fun v => ⟨?_, ?_⟩, ?_⟩
  · intro hmem
    obtain ⟨j, h0, h1, h2⟩ := (mem_entries_iff p (k, v)).1 hmem
    have := Lookup_found p k v0 hsize hp j h0 h1 (by rw [h2])
    rw [h2] at this
    exact this
  · intro hl
    by_cases hex : ∃ j, 0 ≤ j ∧ j < p.size_ ∧ (p.array_ j).1 = k
    · obtain ⟨j, h0, h1, h2⟩ := hex
      have := Lookup_found p k v0 hsize hp j h0 h1 h2
      rw [this] at hl
      injection hl with hl
      injection hl with _ hl
      exact (mem_entries_iff p (k, v)).2 ⟨j, h0, h1, by rw [← hl, ← h2]⟩
    · have := Lookup_absent p k v0 hsize hp (by
        intro j h0 h1 h2
        exact hex ⟨j, h0, h1, h2⟩)
      rw [this] at hl
      injection hl with hl
      injection hl with hl
      exact absurd hl (by decide)
  · intro hno
    apply Lookup_absent p k v0 hsize hp
    intro j h0 h1 h2
    exact hno (p.array_ j).2 ((mem_entries_iff p _).2 ⟨j, h0, h1, by rw [← h2]⟩)

theorem C9_leaf_Lookup_witness :
    0 ≤ (leafOf 1 INVALID_PAGE_ID 4 [(1, 10), (3, 30), (5, 50)]).size_ ∧
    StrictAsc (leafOf 1 INVALID_PAGE_ID 4 [(1, 10), (3, 30), (5, 50)]) ∧
    ((∀ v, (3, v) ∈ entries (leafOf 1 INVALID_PAGE_ID 4 [(1, 10), (3, 30), (5, 50)]) ↔
      Lookup (leafOf 1 INVALID_PAGE_ID 4 [(1, 10), (3, 30), (5, 50)]) 3 0 =
        Except.ok (true, v)) ∧
    ((∀ v, (3, v) ∉ entries (leafOf 1 INVALID_PAGE_ID 4 [(1, 10), (3, 30), (5, 50)])) →
      Lookup (leafOf 1 INVALID_PAGE_ID 4 [(1, 10), (3, 30), (5, 50)]) 3 0 =
        Except.ok (false, 0))) :=
  ⟨by decide, by decide, C9_leaf_Lookup _ 3 0 (by decide) (by decide)⟩

/-- The page `Insert` leaves behind, given the index `KeyIndex` returned. -/
theorem Insert_eq (p : BPlusTreePage) (k v i : Int) (hi : KeyIndex p k = Except.ok i) :
    Insert p k v = Except.ok (p.size_ + 1,
      { p with size_ := p.size_ + 1,
               array_ := fun j => if j = i then (k, v)
                 else if i < j ∧ j ≤ p.size_ then p.array_ (j - 1) else p.array_ j }) := by
  simp only [Insert, hi, bind, Except.bind, pure, Except.pure, IncreaseSize, GetSize,
    forDown_shift]
  congr 3
  funext j
  simp only [Function.update_apply, add_sub_cancel_right]

theorem entries_getElem? (p : BPlusTreePage) (n : Nat) :
    (entries p)[n]? = if (n : Int) < p.size_ then some (p.array_ (n : Int)) else none := by
  unfold entries
  by_cases h : (n : Int) < p.size_
  · rw [if_pos h, List.getElem?_map, List.getElem?_range (by omega)]
    rfl
  · rw [if_neg h, List.getElem?_eq_none (by simp; omega)]

/-- C10: on a leaf page with strictly ascending keys that does not contain `k`,
`Insert(k, v)` returns the old size plus one; the new entries are the old entries
with `(k, v)` put in at position `KeyIndex(k)`, the others keeping their order;
and the keys are again strictly ascending. -/
theorem C10_leaf_Insert (p : BPlusTreePage) (k v : Int) (hsize : 0 ≤ p.size_)
    (hp : StrictAsc p) (hk : ∀ w, (k, w) ∉ entries p) :
    ∃ i q, KeyIndex p k = Except.ok i ∧ Insert p k v = Except.ok (p.size_ + 1, q) ∧
      q.size_ = p.size_ + 1 ∧
      entries q = (entries p).take i.toNat ++ (k, v) :: (entries p).drop i.toNat ∧
      StrictAsc q := by
  obtain ⟨i, hi, hi0, hi1, hlo, hhi⟩ := KeyIndex_spec p k hsize hp
  have hne : ∀ j, 0 ≤ j → j < p.size_ → (p.array_ j).1 ≠ k := by
    intro j h0 h1 h2
    exact hk (p.array_ j).2 ((mem_entries_iff p _).2 ⟨j, h0, h1, by rw [← h2]⟩)
  refine ⟨i, _, hi, Insert_eq p k v i hi, rfl, ?_, ?_⟩
  · apply List.ext_getElem?
    intro n
    rw [getElem?_take_cons_drop _ _ _ _ (by rw [entries_length]; omega), entries_getElem?,
      entries_getElem?, entries_getElem?]
    simp only []
    by_cases h1 : n < i.toNat
    · have a1 : (n : Int) < p.size_ + 1 := by omega
      have a2 : (n : Int) < p.size_ := by omega
      have a3 : ¬ ((n : Int) = i) := by omega
      have a4 : ¬ (i < (n : Int) ∧ (n : Int) ≤ p.size_) := by intro h; have := h.1; omega
      simp only [if_pos h1, if_pos a1, if_pos a2, if_neg a3, if_neg a4]
    · by_cases h2 : n = i.toNat
      · have a1 : (n : Int) < p.size_ + 1 := by omega
        have a3 : (n : Int) = i := by omega
        simp only [if_neg h1, if_pos h2, if_pos a1, if_pos a3]
      · have a3 : ¬ ((n : Int) = i) := by omega
        have e1 : ((n - 1 : Nat) : Int) = (n : Int) - 1 := by omega
        simp only [if_neg h1, if_neg h2, if_neg a3, e1]
        by_cases hc : (n : Int) < p.size_ + 1
        · have a4 : i < (n : Int) ∧ (n : Int) ≤ p.size_ := ⟨by omega, by omega⟩
          have a5 : (n : Int) - 1 < p.size_ := by omega
          simp only [if_pos hc, if_pos a4, if_pos a5]
        · have a5 : ¬ ((n : Int) - 1 < p.size_) := by omega
          simp only [if_neg hc, if_neg a5]
  · apply StrictAsc.of_lt
    intro x y hx hxy hy
    simp only [] at hy ⊢
    have klt : ∀ j, i ≤ j → j < p.size_ → k < (p.array_ j).1 := by
      intro j a b
      have c1 := hhi j a b
      have c2 := hne j (by omega) b
      omega
    by_cases hxi : x = i
    · subst hxi
      have a1 : ¬ (y = x) := by omega
      have a2 : x < y ∧ y ≤ p.size_ := ⟨hxy, by omega⟩
      simp only [if_true, if_neg a1, if_pos a2]
      exact klt (y - 1) (by omega) (by omega)
    · by_cases hyi : y = i
      · subst hyi
        have a2 : ¬ (y < x ∧ x ≤ p.size_) := by intro h; have := h.1; omega
        simp only [if_true, if_neg hxi, if_neg a2]
        exact hlo x hx hxy
      · by_cases hx2 : i < x
        · have a1 : i < x ∧ x ≤ p.size_ := ⟨hx2, by omega⟩
          have a2 : i < y ∧ y ≤ p.size_ := ⟨by omega, by omega⟩
          simp only [if_neg hxi, if_neg hyi, if_pos a1, if_pos a2]
          exact hp.lt (by omega) (by omega) (by omega)
        · have a1 : ¬ (i < x ∧ x ≤ p.size_) := by intro h; exact hx2 h.1
          by_cases hy2 : i < y
          · have a2 : i < y ∧ y ≤ p.size_ := ⟨hy2, by omega⟩
            simp only [if_neg hxi, if_neg hyi, if_neg a1, if_pos a2]
            have d1 := hlo x hx (by omega)
            have d2 := klt (y - 1) (by omega) (by omega)
            omega
          · have a2 : ¬ (i < y ∧ y ≤ p.size_) := by intro h; exact hy2 h.1
            simp only [if_neg hxi, if_neg hyi, if_neg a1, if_neg a2]
            exact hp.lt hx hxy (by omega)

theorem C10_leaf_Insert_witness :
    0 ≤ (leafOf 1 INVALID_PAGE_ID 4 [(1, 10), (3, 30), (5, 50)]).size_ ∧
    StrictAsc (leafOf 1 INVALID_PAGE_ID 4 [(1, 10), (3, 30), (5, 50)]) ∧
    (∀ w, (4, w) ∉ entries (leafOf 1 INVALID_PAGE_ID 4 [(1, 10), (3, 30), (5, 50)])) ∧
    ∃ i q, KeyIndex (leafOf 1 INVALID_PAGE_ID 4 [(1, 10), (3, 30), (5, 50)]) 4 = Except.ok i ∧
      Insert (leafOf 1 INVALID_PAGE_ID 4 [(1, 10), (3, 30), (5, 50)]) 4 40 =
        Except.ok ((leafOf 1 INVALID_PAGE_ID 4 [(1, 10), (3, 30), (5, 50)]).size_ + 1, q) ∧
      q.size_ = (leafOf 1 INVALID_PAGE_ID 4 [(1, 10), (3, 30), (5, 50)]).size_ + 1 ∧
      entries q =
        (entries (leafOf 1 INVALID_PAGE_ID 4 [(1, 10), (3, 30), (5, 50)])).take i.toNat ++
          (4, 40) ::
            (entries (leafOf 1 INVALID_PAGE_ID 4 [(1, 10), (3, 30), (5, 50)])).drop i.toNat ∧
      StrictAsc q :=
  have hno : ∀ w, (4, w) ∉ entries (leafOf 1 INVALID_PAGE_ID 4 [(1, 10), (3, 30), (5, 50)]) := by
    intro w hw
    have : (4 : Int) ∈ (entries (leafOf 1 INVALID_PAGE_ID 4 [(1, 10), (3, 30), (5, 50)])).map
        Prod.fst := List.mem_map_of_mem Prod.fst hw
    revert this
    decide
  ⟨by decide, by decide, hno, C10_leaf_Insert _ 4 40 (by decide) (by decide) hno⟩

/-- On a sorted page the binary search lands on the slot that holds the key. -/
theorem KeyIndex_of_key (p : BPlusTreePage) (k : Int) (hsize : 0 ≤ p.size_)
    (hp : StrictAsc p) (j : Int) (h0 : 0 ≤ j) (h1 : j < p.size_) (hk : (p.array_ j).1 = k) :
    KeyIndex p k = Except.ok j := by
  obtain ⟨i, hi, hi0, hi1, hlo, hhi⟩ := KeyIndex_spec p k hsize hp
  have a1 : i ≤ j := by
    by_contra hc
    have := hlo j h0 (by omega)
    omega
  have a2 : j ≤ i := by
    by_contra hc
    have b1 := hhi i (le_refl _) (by omega)
    have b2 := hp.lt hi0 (by omega : i < j) h1
    omega
  have : i = j := by omega
  rw [hi, this]

theorem RemoveAndDeleteRecord_found (p : BPlusTreePage) (k : Int) (hsize : 0 ≤ p.size_)
    (hp : StrictAsc p) (j : Int) (h0 : 0 ≤ j) (h1 : j < p.size_) (hk : (p.array_ j).1 = k) :
    RemoveAndDeleteRecord p k = Except.ok (p.size_ - 1,
      { p with size_ := p.size_ + -1,
               array_ := moveCells p.array_ j (j + 1) (p.size_ - j - 1) }) := by
  have hc : ¬ (j ≥ p.size_ ∨ comparator k (KeyAt p j) ≠ 0) := by
    rintro (c | c)
    · omega
    · exact c ((comparator_eq_zero _ _).2 hk.symm)
  have hn : ¬ (p.size_ - j - 1 < 0) := by omega
  simp only [RemoveAndDeleteRecord, KeyIndex_of_key p k hsize hp j h0 h1 hk, bind, Except.bind,
    pure, Except.pure, IncreaseSize, GetSize, if_neg hc, memmove, if_neg hn]
  rfl

theorem RemoveAndDeleteRecord_absent (p : BPlusTreePage) (k : Int) (hsize : 0 ≤ p.size_)
    (hp : StrictAsc p) (h : ∀ j, 0 ≤ j → j < p.size_ → (p.array_ j).1 ≠ k) :
    RemoveAndDeleteRecord p k = Except.ok (p.size_, p) := by
  obtain ⟨i, hi, hi0, hi1, hlo, hhi⟩ := KeyIndex_spec p k hsize hp
  have hc : i ≥ p.size_ ∨ comparator k (KeyAt p i) ≠ 0 := by
    by_cases c : i ≥ p.size_
    · exact Or.inl c
    · right
      intro c2
      exact h i hi0 (by omega) ((comparator_eq_zero _ _).1 c2).symm
  simp only [RemoveAndDeleteRecord, hi, bind, Except.bind, pure, Except.pure, GetSize, if_pos hc]

/-- C11: on a leaf page with strictly ascending keys, if `k` is stored at index `i`
then `RemoveAndDeleteRecord(k)` returns the old size minus one and the entries
become the old entries with index `i` deleted, the others keeping their order; if
`k` is not stored, the old size is returned and the page is unchanged. -/
theorem C11_leaf_RemoveAndDeleteRecord (p : BPlusTreePage) (k : Int) (hsize : 0 ≤ p.size_)
    (hp : StrictAsc p) :
    (∀ i, 0 ≤ i → i < p.size_ → (p.array_ i).1 = k →
      ∃ q, RemoveAndDeleteRecord p k = Except.ok (p.size_ - 1, q) ∧
        q.size_ = p.size_ - 1 ∧ entries q = (entries p).eraseIdx i.toNat) ∧
    ((∀ v, (k, v) ∉ entries p) → RemoveAndDeleteRecord p k = Except.ok (p.size_, p)) := by
  refine ⟨?_, ?_⟩
  · intro i h0 h1 hk
    refine ⟨_, RemoveAndDeleteRecord_found p k hsize hp i h0 h1 hk, by simp only []; omega, ?_⟩
    apply List.ext_getElem?
    intro n
    rw [List.getElem?_eraseIdx, entries_getElem?, entries_getElem?, entries_getElem?]
    simp only [moveCells]
    have e1 : (((n + 1 : Nat) : Nat) : Int) = (n : Int) + 1 := by omega
    rw [e1]
    by_cases hn : (n : Int) < p.size_ + -1
    · have a1 : (n : Int) < p.size_ := by omega
      have a2 : (n : Int) + 1 < p.size_ := by omega
      by_cases hni : n < i.toNat
      · have a3 : ¬ (i ≤ (n : Int) ∧ (n : Int) < i + (p.size_ - i - 1)) := by
          intro h; have := h.1; omega
        simp only [if_pos hn, if_pos hni, if_pos a1, if_neg a3]
      · have a3 : i ≤ (n : Int) ∧ (n : Int) < i + (p.size_ - i - 1) := ⟨by omega, by omega⟩
        have e2 : i + 1 + ((n : Int) - i) = (n : Int) + 1 := by omega
        simp only [if_pos hn, if_neg hni, if_pos a2, if_pos a3, e2]
    · have a2 : ¬ ((n : Int) + 1 < p.size_) := by omega
      have hni : ¬ (n < i.toNat) := by omega
      simp only [if_neg hn, if_neg hni, if_neg a2]
  · intro hno
    apply RemoveAndDeleteRecord_absent p k hsize hp
    intro j h0 h1 h2
    exact hno (p.array_ j).2 ((mem_entries_iff p _).2 ⟨j, h0, h1, by rw [← h2]⟩)

theorem C11_leaf_RemoveAndDeleteRecord_witness :
    0 ≤ (leafOf 1 INVALID_PAGE_ID 4 [(1, 10), (3, 30), (5, 50)]).size_ ∧
    StrictAsc (leafOf 1 INVALID_PAGE_ID 4 [(1, 10), (3, 30), (5, 50)]) ∧
    ((∀ i, 0 ≤ i → i < (leafOf 1 INVALID_PAGE_ID 4 [(1, 10), (3, 30), (5, 50)]).size_ →
        ((leafOf 1 INVALID_PAGE_ID 4 [(1, 10), (3, 30), (5, 50)]).array_ i).1 = 3 →
      ∃ q, RemoveAndDeleteRecord (leafOf 1 INVALID_PAGE_ID 4 [(1, 10), (3, 30), (5, 50)]) 3 =
          Except.ok ((leafOf 1 INVALID_PAGE_ID 4 [(1, 10), (3, 30), (5, 50)]).size_ - 1, q) ∧
        q.size_ = (leafOf 1 INVALID_PAGE_ID 4 [(1, 10), (3, 30), (5, 50)]).size_ - 1 ∧
        entries q =
          (entries (leafOf 1 INVALID_PAGE_ID 4 [(1, 10), (3, 30), (5, 50)])).eraseIdx i.toNat) ∧
    ((∀ v, (3, v) ∉ entries (leafOf 1 INVALID_PAGE_ID 4 [(1, 10), (3, 30), (5, 50)])) →
      RemoveAndDeleteRecord (leafOf 1 INVALID_PAGE_ID 4 [(1, 10), (3, 30), (5, 50)]) 3 =
        Except.ok ((leafOf 1 INVALID_PAGE_ID 4 [(1, 10), (3, 30), (5, 50)]).size_,
          leafOf 1 INVALID_PAGE_ID 4 [(1, 10), (3, 30), (5, 50)]))) :=
  ⟨by decide, by decide, C11_leaf_RemoveAndDeleteRecord _ 3 (by decide) (by decide)⟩

/-- The two pages `MoveAllTo` leaves behind. -/
theorem MoveAllTo_eq (p r : BPlusTreePage) :
    MoveAllTo p r =
      ({ p with size_ := 0 },
       { r with
         next_page_id_ := p.next_page_id_
         size_ := r.size_ + p.size_
         array_ := fun j =>
           if 0 + r.size_ ≤ j ∧ j < p.size_ + r.size_ then p.array_ (j - r.size_)
           else r.array_ j }) := by
  have e : (fun (i : Int) (a : Int → MappingType) =>
      Function.update a (r.size_ + i) (p.array_ i)) =
      (fun i a => Function.update a (i + r.size_) (p.array_ i)) := by
    funext i a
    rw [add_comm]
  simp only [MoveAllTo, SetNextPageId, GetNextPageId, IncreaseSize, SetSize, GetSize, e,
    forUp_copy]

/-- C16: for a leaf page and a recipient leaf page, after `MoveAllTo` the recipient
holds its old entries followed by all entries of the page, in order, its size is
the sum of both sizes, its next page is the old next page of the page, and the
page has size 0. -/
theorem C16_leaf_MoveAllTo (p r : BPlusTreePage) (hp : 0 ≤ p.size_) (hr : 0 ≤ r.size_) :
    entries (MoveAllTo p r).2 = entries r ++ entries p ∧
    GetSize (MoveAllTo p r).2 = GetSize r + GetSize p ∧
    GetNextPageId (MoveAllTo p r).2 = GetNextPageId p ∧
    GetSize (MoveAllTo p r).1 = 0 := by
  rw [MoveAllTo_eq]
  refine ⟨?_, rfl, rfl, rfl⟩
  apply List.ext_getElem?
  intro n
  rw [List.getElem?_append, entries_getElem?, entries_getElem?, entries_getElem?, entries_length]
  simp only []
  by_cases h1 : n < r.size_.toNat
  · have a1 : (n : Int) < r.size_ + p.size_ := by omega
    have a2 : (n : Int) < r.size_ := by omega
    have a3 : ¬ (0 + r.size_ ≤ (n : Int) ∧ (n : Int) < p.size_ + r.size_) := by
      intro h; have := h.1; omega
    simp only [if_pos h1, if_pos a1, if_pos a2, if_neg a3]
  · have e1 : ((n - r.size_.toNat : Nat) : Int) = (n : Int) - r.size_ := by omega
    simp only [if_neg h1, e1]
    by_cases h2 : (n : Int) < r.size_ + p.size_
    · have a3 : 0 + r.size_ ≤ (n : Int) ∧ (n : Int) < p.size_ + r.size_ := ⟨by omega, by omega⟩
      have a4 : (n : Int) - r.size_ < p.size_ := by omega
      simp only [if_pos h2, if_pos a3, if_pos a4]
    · have a4 : ¬ ((n : Int) - r.size_ < p.size_) := by omega
      simp only [if_neg h2, if_neg a4]

theorem C16_leaf_MoveAllTo_witness :
    0 ≤ leaf_5_6.size_ ∧ 0 ≤ leaf_1_2.size_ ∧
    entries (MoveAllTo leaf_5_6 leaf_1_2).2 = entries leaf_1_2 ++ entries leaf_5_6 ∧
    GetSize (MoveAllTo leaf_5_6 leaf_1_2).2 = GetSize leaf_1_2 + GetSize leaf_5_6 ∧
    GetNextPageId (MoveAllTo leaf_5_6 leaf_1_2).2 = GetNextPageId leaf_5_6 ∧
    GetSize (MoveAllTo leaf_5_6 leaf_1_2).1 = 0 :=
  ⟨by decide, by decide, C16_leaf_MoveAllTo leaf_5_6 leaf_1_2 (by decide) (by decide)⟩

/-- The two pages `MoveHalfTo` leaves behind. -/
theorem MoveHalfTo_eq (p r : BPlusTreePage) :
    MoveHalfTo p r =
      ({ p with
         next_page_id_ := r.page_id_
         size_ := Int.tdiv (p.max_size_ + 1) 2 },
       { r with
         next_page_id_ := p.next_page_id_
         size_ := p.max_size_ + 1 - Int.tdiv (p.max_size_ + 1) 2
         array_ := fun j =>
           if Int.tdiv (p.max_size_ + 1) 2 + -Int.tdiv (p.max_size_ + 1) 2 ≤ j ∧
               j < p.max_size_ + 1 + -Int.tdiv (p.max_size_ + 1) 2 then
             p.array_ (j - -Int.tdiv (p.max_size_ + 1) 2)
           else r.array_ j }) := by
  simp only [MoveHalfTo, sub_eq_add_neg, forUp_copy, SetNextPageId, GetNextPageId, SetSize,
    GetMaxSize, GetPageId]

/-- C15 (as stated, refuted): the leaf `leaf_1_2` has cap 4 and holds `n = 2`
entries; after `MoveHalfTo` into an empty leaf it still has size 2, not `n / 2 = 1`,
and the recipient has size 3, not `n - n / 2 = 1`: the split point is computed
from `GetMaxSize() + 1`, not from the current size. -/
theorem C15_leaf_MoveHalfTo_counterexample :
    leaf_1_2.size_ = 2 ∧ leaf_1_2.max_size_ = 4 ∧ leaf_empty.size_ = 0 ∧
    (MoveHalfTo leaf_1_2 leaf_empty).1.size_ = 2 ∧
    (MoveHalfTo leaf_1_2 leaf_empty).2.size_ = 3 ∧
    ¬ ((MoveHalfTo leaf_1_2 leaf_empty).1.size_ = Int.tdiv leaf_1_2.size_ 2 ∧
       (MoveHalfTo leaf_1_2 leaf_empty).2.size_ = leaf_1_2.size_ - Int.tdiv leaf_1_2.size_ 2 ∧
       entries (MoveHalfTo leaf_1_2 leaf_empty).1 =
         (entries leaf_1_2).take (Int.tdiv leaf_1_2.size_ 2).toNat ∧
       entries (MoveHalfTo leaf_1_2 leaf_empty).2 =
         (entries leaf_1_2).drop (Int.tdiv leaf_1_2.size_ 2).toNat) := by
  decide

/-- C15 (amended): for a leaf page whose size `n` is `max_size + 1`, after
`MoveHalfTo` the page keeps entries `[0, n/2)` with size `n/2`, the recipient holds
entries `[n/2, n)` in the same order with size `n - n/2`, and the recipient is
spliced in as next sibling. -/
theorem C15_leaf_MoveHalfTo_at_overflow (p r : BPlusTreePage) (hsize : 0 ≤ p.size_)
    (hfull : p.size_ = p.max_size_ + 1) :
    entries (MoveHalfTo p r).1 = (entries p).take (Int.tdiv p.size_ 2).toNat ∧
    GetSize (MoveHalfTo p r).1 = Int.tdiv p.size_ 2 ∧
    entries (MoveHalfTo p r).2 = (entries p).drop (Int.tdiv p.size_ 2).toNat ∧
    GetSize (MoveHalfTo p r).2 = p.size_ - Int.tdiv p.size_ 2 ∧
    GetNextPageId (MoveHalfTo p r).2 = GetNextPageId p ∧
    GetNextPageId (MoveHalfTo p r).1 = GetPageId r := by
  rw [MoveHalfTo_eq, ← hfull]
  have hb : Int.tdiv p.size_ 2 = p.size_ / 2 :=
    Int.tdiv_eq_ediv hsize (by omega)
  refine ⟨?_, rfl, ?_, rfl, rfl, rfl⟩
  · apply List.ext_getElem?
    intro n
    rw [List.getElem?_take, entries_getElem?, entries_getElem?]
    simp only []
    rw [hb]
    by_cases h1 : (n : Int) < p.size_ / 2
    · have a1 : n < (p.size_ / 2).toNat := by omega
      have a2 : (n : Int) < p.size_ := by omega
      simp only [if_pos h1, if_pos a1, if_pos a2]
    · have a1 : ¬ (n < (p.size_ / 2).toNat) := by omega
      simp only [if_neg h1, if_neg a1]
  · apply List.ext_getElem?
    intro n
    rw [List.getElem?_drop, entries_getElem?, entries_getElem?]
    simp only []
    rw [hb]
    have e1 : (((p.size_ / 2).toNat + n : Nat) : Int) = (n : Int) - -(p.size_ / 2) := by omega
    rw [e1]
    by_cases h1 : (n : Int) < p.size_ - p.size_ / 2
    · have a1 : p.size_ / 2 + -(p.size_ / 2) ≤ (n : Int) ∧
          (n : Int) < p.size_ + -(p.size_ / 2) := ⟨by omega, by omega⟩
      have a2 : (n : Int) - -(p.size_ / 2) < p.size_ := by omega
      simp only [if_pos h1, if_pos a1, if_pos a2]
    · have a2 : ¬ ((n : Int) - -(p.size_ / 2) < p.size_) := by omega
      simp only [if_neg h1, if_neg a2]

theorem C15_leaf_MoveHalfTo_at_overflow_witness :
    0 ≤ leaf_1_to_5.size_ ∧ leaf_1_to_5.size_ = leaf_1_to_5.max_size_ + 1 ∧
    entries (MoveHalfTo leaf_1_to_5 leaf_empty).1 =
      (entries leaf_1_to_5).take (Int.tdiv leaf_1_to_5.size_ 2).toNat ∧
    GetSize (MoveHalfTo leaf_1_to_5 leaf_empty).1 = Int.tdiv leaf_1_to_5.size_ 2 ∧
    entries (MoveHalfTo leaf_1_to_5 leaf_empty).2 =
      (entries leaf_1_to_5).drop (Int.tdiv leaf_1_to_5.size_ 2).toNat ∧
    GetSize (MoveHalfTo leaf_1_to_5 leaf_empty).2 =
      leaf_1_to_5.size_ - Int.tdiv leaf_1_to_5.size_ 2 ∧
    GetNextPageId (MoveHalfTo leaf_1_to_5 leaf_empty).2 = GetNextPageId leaf_1_to_5 ∧
    GetNextPageId (MoveHalfTo leaf_1_to_5 leaf_empty).1 = GetPageId leaf_empty :=
  ⟨by decide, by decide,
    C15_leaf_MoveHalfTo_at_overflow leaf_1_to_5 leaf_empty (by decide) (by decide)⟩

end LeafPage

/-- Writing an entry into the cell just behind the live ones and counting it. -/
theorem entries_push (r : BPlusTreePage) (x : MappingType) (hr : 0 ≤ r.size_) :
    entries { r with size_ := r.size_ + 1, array_ := Function.update r.array_ r.size_ x } =
      entries r ++ [x] := by
  apply List.ext_getElem?
  intro n
  rw [List.getElem?_append, LeafPage.entries_getElem?, LeafPage.entries_getElem?, entries_length]
  simp only [Function.update_apply]
  by_cases h1 : n < r.size_.toNat
  · have a1 : (n : Int) < r.size_ + 1 := by omega
    have a2 : (n : Int) < r.size_ := by omega
    have a3 : ¬ ((n : Int) = r.size_) := by omega
    simp only [if_pos h1, if_pos a1, if_pos a2, if_neg a3]
  · by_cases h2 : n = r.size_.toNat
    · have a1 : (n : Int) < r.size_ + 1 := by omega
      have a3 : (n : Int) = r.size_ := by omega
      have e : n - r.size_.toNat = 0 := by omega
      simp only [if_neg h1, if_pos a1, if_pos a3, e, List.getElem?_cons_zero]
    · have a1 : ¬ ((n : Int) < r.size_ + 1) := by omega
      have e : r.size_.toNat ≤ n - r.size_.toNat + r.size_.toNat := by omega
      obtain ⟨d, hd⟩ : ∃ d, n - r.size_.toNat = d + 1 := ⟨n - r.size_.toNat - 1, by omega⟩
      simp only [if_neg h1, if_neg a1, hd, List.getElem?_cons_succ, List.getElem?_nil]

/-- Dropping entry 0 by moving the other `size - 1` entries one cell to the left. -/
theorem entries_shift_left (p : BPlusTreePage) :
    entries { p with size_ := p.size_ + -1, array_ := moveCells p.array_ 0 1 (p.size_ + -1) } =
      (entries p).drop 1 := by
  apply List.ext_getElem?
  intro n
  rw [List.getElem?_drop, LeafPage.entries_getElem?, LeafPage.entries_getElem?]
  simp only [moveCells]
  have e1 : ((1 + n : Nat) : Int) = 1 + ((n : Int) - 0) := by omega
  rw [e1]
  by_cases h1 : (n : Int) < p.size_ + -1
  · have a1 : (0 : Int) ≤ (n : Int) ∧ (n : Int) < 0 + (p.size_ + -1) := ⟨by omega, by omega⟩
    have a2 : 1 + ((n : Int) - 0) < p.size_ := by omega
    simp only [if_pos h1, if_pos a1, if_pos a2]
  · have a2 : ¬ (1 + ((n : Int) - 0) < p.size_) := by omega
    simp only [if_neg h1, if_neg a2]

/-- A page with at least one entry is its cell 0 followed by its other entries. -/
theorem entries_head (p : BPlusTreePage) (h : 1 ≤ p.size_) :
    entries p = p.array_ 0 :: (entries p).drop 1 := by
  apply List.ext_getElem?
  intro n
  cases n with
  | zero =>
    have a : ((0 : Nat) : Int) < p.size_ := by omega
    rw [LeafPage.entries_getElem?, if_pos a, List.getElem?_cons_zero]
    rfl
  | succ m =>
    rw [List.getElem?_cons_succ, List.getElem?_drop, Nat.add_comm 1 m]

/-- Giving up the last entry by decreasing the size: the page is what is left
followed by the entry given up. -/
theorem entries_pop (p : BPlusTreePage) (h : 1 ≤ p.size_) :
    entries { p with size_ := p.size_ + -1 } ++ [p.array_ (p.size_ - 1)] = entries p := by
  apply List.ext_getElem?
  intro n
  rw [List.getElem?_append, LeafPage.entries_getElem?, LeafPage.entries_getElem?, entries_length]
  simp only []
  by_cases h1 : n < (p.size_ + -1).toNat
  · have a1 : (n : Int) < p.size_ + -1 := by omega
    have a2 : (n : Int) < p.size_ := by omega
    simp only [if_pos h1, if_pos a1, if_pos a2]
  · by_cases h2 : n = (p.size_ + -1).toNat
    · have a2 : (n : Int) < p.size_ := by omega
      have e : n - (p.size_ + -1).toNat = 0 := by omega
      have e2 : p.size_ - 1 = (n : Int) := by omega
      simp only [if_neg h1, if_pos a2, e, List.getElem?_cons_zero, e2]
    · have a2 : ¬ ((n : Int) < p.size_) := by omega
      obtain ⟨d, hd⟩ : ∃ d, n - (p.size_ + -1).toNat = d + 1 :=
        ⟨n - (p.size_ + -1).toNat - 1, by omega⟩
      simp only [if_neg h1, if_neg a2, hd, List.getElem?_cons_succ, List.getElem?_nil]

/-- Putting an entry in front by moving the `size` entries one cell to the right. -/
theorem entries_unshift (r : BPlusTreePage) (x : MappingType) (hr : 0 ≤ r.size_) :
    entries { r with
      size_ := r.size_ + 1
      array_ := Function.update (moveCells r.array_ 1 0 r.size_) 0 x } = x :: entries r := by
  apply List.ext_getElem?
  intro n
  cases n with
  | zero =>
    have a : ((0 : Nat) : Int) < r.size_ + 1 := by omega
    rw [LeafPage.entries_getElem?]
    simp only [if_pos a, List.getElem?_cons_zero, Function.update_apply]
    rfl
  | succ m =>
    rw [List.getElem?_cons_succ, LeafPage.entries_getElem?, LeafPage.entries_getElem?]
    simp only [Function.update_apply, moveCells]
    have a0 : ¬ (((m + 1 : Nat) : Int) = 0) := by omega
    by_cases h1 : (m : Int) < r.size_
    · have a1 : ((m + 1 : Nat) : Int) < r.size_ + 1 := by omega
      have a2 : (1 : Int) ≤ ((m + 1 : Nat) : Int) ∧ ((m + 1 : Nat) : Int) < 1 + r.size_ :=
        ⟨by omega, by omega⟩
      have e : 0 + (((m + 1 : Nat) : Int) - 1) = (m : Int) := by omega
      simp only [if_pos h1, if_pos a1, if_neg a0, if_pos a2, e]
    · have a1 : ¬ (((m + 1 : Nat) : Int) < r.size_ + 1) := by omega
      simp only [if_neg h1, if_neg a1]

namespace InternalPage

/-! ### Internal page -/

/-- When the two range checks of `Lookup` pass, its result is that of the loop. -/
theorem Lookup_of_loop_error (fuel : Nat) (p : BPlusTreePage) (k : Int) (e : Fault)
    (h1 : p.size_ > 1) (h2 : ¬ (k < (p.array_ 1).1)) (h3 : ¬ ((p.array_ (p.size_ - 1)).1 ≤ k))
    (h : Lookup.loop p k fuel 1 (p.size_ - 1) = Except.error e) :
    Lookup fuel p k = Except.error e := by
  unfold Lookup
  have c1 : ¬ ¬ (GetSize p > 1) := not_not.2 h1
  have c2 : ¬ (comparator k (p.array_ 1).1 < 0) := fun c => h2 ((comparator_lt_zero _ _).1 c)
  have c3 : ¬ (comparator k (p.array_ (GetSize p - 1)).1 ≥ 0) :=
    fun c => h3 ((comparator_ge_zero _ _).1 c)
  rw [if_neg c1, if_neg c2, if_neg c3]
  unfold GetSize
  rw [h]
  rfl

/-- On keys `(dummy, 10, 20, 30)` and `k = 25` the loop of `Lookup` reaches
`left = 3, right = 4` and stays there. -/
theorem Lookup.loop_25_stuck :
    ∀ fuel, Lookup.loop internal_10_20_30 25 fuel 3 4 = Except.error Fault.outOfFuel := by
  intro fuel
  induction fuel with
  | zero => rfl
  | succ n ih => exact ih

/-- C12 (code defect): on the internal page of size 4 with strictly ascending keys
`(dummy, 10, 20, 30)`, `Lookup(25)` never returns the child of slot 2 (the largest
slot whose key is at most 25): whatever the fuel, the loop does not finish. -/
theorem C12_internal_Lookup_no_result :
    internal_10_20_30.size_ = 4 ∧
    (entries internal_10_20_30).map Prod.fst = [0, 10, 20, 30] ∧
    ∀ fuel, Lookup fuel internal_10_20_30 25 = Except.error Fault.outOfFuel := by
  refine ⟨rfl, by decide, ?_⟩
  intro fuel
  apply Lookup_of_loop_error fuel internal_10_20_30 25 _ (by decide) (by decide) (by decide)
  match fuel with
  | 0 => rfl
  | 1 => rfl
  | n + 2 => exact Lookup.loop_25_stuck n

/-- C13 (code defect): on the internal page `[(_, 7), (10, 8)]`, whose child ids are
distinct, slot 0 holds child 7 and yet `ValueIndex(7)` returns -1; the scan starts
at slot 1. -/
theorem C13_ValueIndex_misses_slot_zero :
    (entries internal_7_8).map Prod.snd = [7, 8] ∧
    (internal_7_8.array_ 0).2 = 7 ∧
    ValueIndex internal_7_8 7 = -1 ∧
    ValueIndex internal_7_8 8 = 1 := by
  decide

/-- C14 (code defect): on the internal page `[(_, 7), (10, 8)]`, where child 7 sits
in slot 0, `InsertNodeAfter(7, 5, 9)` fails its assertion `index != -1` instead of
returning the new size 3. -/
theorem C14_InsertNodeAfter_slot_zero_asserts :
    (internal_7_8.array_ 0).2 = 7 ∧
    (InsertNodeAfter internal_7_8 7 5 9).map (fun r => r.1) = Except.error Fault.assertFail ∧
    (InsertNodeAfter internal_7_8 8 15 9).map (fun r => (r.1, entries r.2)) =
      Except.ok (3, [(0, 7), (10, 8), (15, 9)]) := by
  decide

/-- C18 (code defect): on the internal page of size 1 holding the single child 7,
`RemoveAndReturnOnlyChild` fails its assertion `GetSize() != 0`, which is checked
after the size has been decreased to 0. -/
theorem C18_RemoveAndReturnOnlyChild_asserts :
    internal_7.size_ = 1 ∧
    (RemoveAndReturnOnlyChild internal_7).map (fun r => r.1) = Except.error Fault.assertFail := by
  decide

/-- On keys `(dummy, 10, 20)` and `k = 15` one round of the loop of `Lookup` takes
the interval `[2, 3]` to itself. -/
theorem Lookup.loop_15_step (fuel : Nat) :
    Lookup.loop internal_10_20 15 (fuel + 1) 2 3 = Lookup.loop internal_10_20 15 fuel 2 3 := by
  rfl

theorem Lookup.loop_15_stuck :
    ∀ fuel, Lookup.loop internal_10_20 15 fuel 2 3 = Except.error Fault.outOfFuel := by
  intro fuel
  induction fuel with
  | zero => rfl
  | succ n ih => rw [Lookup.loop_15_step]; exact ih

/-- C20 (code defect): on the internal page of size 3 with keys `(dummy, 10, 20)` and
`k = 15`, the loop of `Lookup` goes from `[1, 2]` to `[2, 2]` to `[2, 3]`, and from
`[2, 3]` to `[2, 3]` again: the interval grows and then stays, and `Lookup` does
not return for any amount of fuel. -/
theorem C20_internal_Lookup_diverges :
    internal_10_20.size_ = 3 ∧
    (entries internal_10_20).map Prod.fst = [0, 10, 20] ∧
    (∀ fuel, Lookup.loop internal_10_20 15 (fuel + 1) 1 2 =
      Lookup.loop internal_10_20 15 fuel 2 2) ∧
    (∀ fuel, Lookup.loop internal_10_20 15 (fuel + 1) 2 2 =
      Lookup.loop internal_10_20 15 fuel 2 3) ∧
    (∀ fuel, Lookup.loop internal_10_20 15 (fuel + 1) 2 3 =
      Lookup.loop internal_10_20 15 fuel 2 3) ∧
    ∀ fuel, Lookup fuel internal_10_20 15 = Except.error Fault.outOfFuel := by
  refine ⟨rfl, by decide, fun _ => rfl, fun _ => rfl, fun _ => rfl, ?_⟩
  intro fuel
  apply Lookup_of_loop_error fuel internal_10_20 15 _ (by decide) (by decide) (by decide)
  match fuel with
  | 0 => rfl
  | 1 => rfl
  | n + 2 => exact Lookup.loop_15_stuck n

/-- C17 (code defect): for the internal siblings of `poolTwoInternal`, self = page 2
`[(_, 13), (15, 14)]` and recipient = page 1 `[(_, 11), (5, 12)]` with separator
10 in the parent, `MoveAllTo` leaves the recipient with size 2 and entries
`[(10, 13), (15, 14)]`: its own entries are overwritten and its size is not
increased. -/
theorem C17_internal_MoveAllTo_overwrites :
    (poolTwoInternal.frames 1).map entries = some [(0, 11), (5, 12)] ∧
    (poolTwoInternal.frames 2).map entries = some [(0, 13), (15, 14)] ∧
    (poolTwoInternal.frames 3).map entries = some [(0, 1), (10, 2)] ∧
    (MoveAllTo poolTwoInternal 2 1).map
      (fun bpm => ((bpm.frames 1).map (fun p => (p.size_, entries p)),
        (bpm.frames 2).map (fun p => p.size_))) =
      Except.ok (some (2, [(10, 13), (15, 14)]), some 0) := by
  decide

/-- The scan of `ValueIndex` stops at the first slot from `s` on that holds `c`. -/
theorem ValueIndex.loop_found (p : BPlusTreePage) (c size : Int) :
    ∀ (n : Nat) (s i : Int), s ≤ i → i < size → (i - s).toNat < n → (p.array_ i).2 = c →
      (∀ j, s ≤ j → j < i → (p.array_ j).2 ≠ c) →
      ValueIndex.loop p c size n s = i := by
  intro n
  induction n with
  | zero => intro s i _ _ hn; omega
  | succ n ih =>
    intro s i hsi hi hn hc hfirst
    unfold ValueIndex.loop
    have c1 : s < size := by omega
    rw [if_pos c1]
    by_cases hs : s = i
    · subst hs
      rw [if_pos hc]
    · have c2 : ¬ ((p.array_ s).2 = c) := hfirst s (le_refl _) (by omega)
      rw [if_neg c2]
      exact ih (s + 1) i (by omega) hi (by omega) hc
        (fun j a b => hfirst j (by omega) b)

/-- `ValueIndex` finds a child that sits in a slot from 1 on. -/
theorem ValueIndex_of_slot (p : BPlusTreePage) (c i : Int) (h1 : 1 ≤ i) (h2 : i < p.size_)
    (h3 : (p.array_ i).2 = c) (hfirst : ∀ j, 1 ≤ j → j < i → (p.array_ j).2 ≠ c) :
    ValueIndex p c = i := by
  unfold ValueIndex GetSize
  exact ValueIndex.loop_found p c p.size_ _ 1 i h1 h2 (by omega) h3 hfirst

/-- One round of the loop of `CopyNFrom`, when the page and the child exist. -/
theorem CopyNFrom.body_ok (this : Int) (items : Int → MappingType) (i : Int)
    (bpm : BufferPoolManager) (page child : BPlusTreePage)
    (hpage : bpm.frames this = some page) (hchild : bpm.frames (items i).2 = some child)
    (hne : (items i).2 ≠ this) :
    CopyNFrom.body this items i (Except.ok bpm) = Except.ok
      { frames := Function.update
          (Function.update bpm.frames this
            (some { page with array_ := Function.update page.array_ i (items i) }))
          (items i).2 (some (SetParentPageId child (GetPageId page))),
        pin_count := Function.update
          (Function.update bpm.pin_count (items i).2 (bpm.pin_count (items i).2 + 1))
          (items i).2 (bpm.pin_count (items i).2 + 1 - 1),
        next_page_id := bpm.next_page_id } := by
  unfold CopyNFrom.body
  simp only [deref, FetchPage, store, UnpinPage, hpage, hchild, bind, Except.bind, pure,
    Except.pure, Function.update_apply, if_true, hne, if_false, GetPageId]

/-- The loop of `CopyNFrom` after `m` rounds: cells `0 .. m - 1` of the page hold the
copied entries, every frame that existed still exists, and a frame that is neither
the page nor one of the adopted children is untouched. -/
theorem CopyNFrom.fold_spec (this : Int) (items : Int → MappingType)
    (bpm : BufferPoolManager) (r : BPlusTreePage) (hr : bpm.frames this = some r) :
    ∀ m : Nat,
      (∀ j : Int, 0 ≤ j → j < (m : Int) →
        (bpm.frames (items j).2).isSome = true ∧ (items j).2 ≠ this) →
      ∃ bpm1, (List.range m).foldl
          (fun acc (j : Nat) => CopyNFrom.body this items (0 + (j : Int)) acc) (Except.ok bpm) =
          Except.ok bpm1 ∧
        bpm1.frames this = some { r with
          array_ := fun j => if 0 ≤ j ∧ j < (m : Int) then items j else r.array_ j } ∧
        (∀ c, (bpm.frames c).isSome = true → (bpm1.frames c).isSome = true) ∧
        (∀ c, c ≠ this → (∀ j : Int, 0 ≤ j → j < (m : Int) → (items j).2 ≠ c) →
          bpm1.frames c = bpm.frames c) := by
  intro m
  induction m with
  | zero =>
    intro _
    refine ⟨bpm, rfl, ?_, fun c h => h, fun c _ _ => rfl⟩
    have e : (fun j => if 0 ≤ j ∧ j < ((0 : Nat) : Int) then items j else r.array_ j) =
        r.array_ := by
      funext j
      have c : ¬ (0 ≤ j ∧ j < ((0 : Nat) : Int)) := by
        intro h; have := h.1; have := h.2; omega
      rw [if_neg c]
    rw [hr, e]
  | succ n ih =>
    intro hch
    obtain ⟨bpm1, h1, h2, h3, h4⟩ := ih (fun j a b => hch j a (by omega))
    obtain ⟨hsome, hne⟩ := hch (n : Int) (by omega) (by omega)
    have hsome1 := h3 _ hsome
    obtain ⟨child, hchild⟩ := Option.isSome_iff_exists.1 hsome1
    rw [List.range_succ, List.foldl_append, h1]
    simp only [List.foldl_cons, List.foldl_nil, zero_add]
    rw [CopyNFrom.body_ok this items (n : Int) bpm1 _ child h2 hchild hne]
    refine ⟨_, rfl, ?_, ?_, ?_⟩
    · simp only [Function.update_apply, hne.symm, if_false, if_true]
      congr 2
      funext j
      simp only [Function.update_apply]
      by_cases hj : j = (n : Int)
      · have c : 0 ≤ j ∧ j < ((n + 1 : Nat) : Int) := ⟨by omega, by omega⟩
        rw [if_pos hj, if_pos c, hj]
      · rw [if_neg hj]
        by_cases hc : 0 ≤ j ∧ j < (n : Int)
        · have c : 0 ≤ j ∧ j < ((n + 1 : Nat) : Int) := ⟨hc.1, by omega⟩
          rw [if_pos hc, if_pos c]
        · have c : ¬ (0 ≤ j ∧ j < ((n + 1 : Nat) : Int)) := by
            intro h; apply hc; exact ⟨h.1, by omega⟩
          rw [if_neg hc, if_neg c]
    · intro c hc
      simp only [Function.update_apply]
      split_ifs
      · rfl
      · rfl
      · exact h3 c hc
    · intro c hc hall
      have c1 : ¬ (c = (items (n : Int)).2) := fun e => hall (n : Int) (by omega) (by omega) e.symm
      simp only [Function.update_apply, if_neg c1, if_neg hc]
      exact h4 c hc (fun j a b => hall j a (by omega))

/-- `CopyNFrom` with a count `size ≥ 0`, in terms of the frames it leaves behind. -/
theorem CopyNFrom_spec (bpm : BufferPoolManager) (this : Int) (items : Int → MappingType)
    (size : Int) (r : BPlusTreePage) (hr : bpm.frames this = some r) (hsize : 0 ≤ size)
    (hch : ∀ j : Int, 0 ≤ j → j < size →
      (bpm.frames (items j).2).isSome = true ∧ (items j).2 ≠ this) :
    ∃ bpm1, CopyNFrom bpm this items size = Except.ok bpm1 ∧
      bpm1.frames this = some { r with
        array_ := fun j => if 0 ≤ j ∧ j < size then items j else r.array_ j } ∧
      (∀ c, c ≠ this → (∀ j : Int, 0 ≤ j → j < size → (items j).2 ≠ c) →
        bpm1.frames c = bpm.frames c) := by
  have e : ((size - 0).toNat : Int) = size := by omega
  obtain ⟨bpm1, h1, h2, _, h4⟩ := CopyNFrom.fold_spec this items bpm r hr (size - 0).toNat
    (fun j a b => hch j a (by omega))
  refine ⟨bpm1, h1, ?_, ?_⟩
  · rw [h2, e]
  · intro c hc hall
    exact h4 c hc (fun j a b => hall j a (by omega))

/-- C28 (code defect): in `poolInternalSplit` the internal page 2 holds
`[(_, 13), (15, 14), (17, 15)]` and the recipient 16 is empty.  After `MoveHalfTo`
the page keeps its first two entries and the recipient has size 1 and the child
15, but not the key 17 that went with it: `CopyFirstFrom` wrote that key to slot 0
of the parent, which now holds `[(17, 1), (10, 2)]`, and gave the recipient the
key it read at the parent's slot `ValueIndex(16) = -1`. -/
theorem C28_internal_MoveHalfTo_loses_key :
    (poolInternalSplit.frames 2).map (fun p => (p.size_, entries p)) =
      some (3, [(0, 13), (15, 14), (17, 15)]) ∧
    (poolInternalSplit.frames 16).map (fun p => (p.size_, p.parent_page_id_)) =
      some (0, 3) ∧
    (poolInternalSplit.frames 3).map
      (fun p => (entries p, ValueIndex p 16)) = some ([(0, 1), (10, 2)], -1) ∧
    (MoveHalfTo poolInternalSplit 2 16).map
      (fun bpm => ((bpm.frames 2).map (fun p => (p.size_, entries p)),
        (bpm.frames 3).map entries)) =
      Except.ok (some (2, [(0, 13), (15, 14)]), some [(17, 1), (10, 2)]) ∧
    (MoveHalfTo poolInternalSplit 2 16).map
      (fun bpm => (bpm.frames 16).map
        (fun p => (p.size_, (entries p).map Prod.snd,
          decide ((entries p).map Prod.fst = [17])))) =
      Except.ok (some (1, [15], false)) := by
  refine ⟨by decide, by decide, by decide, by decide, by decide⟩

/-- C25 (code defect): in `poolTwoInternalB` the right sibling 2 holds
`[(_, 13), (15, 14), (17, 15)]`; after `MoveFirstToEndOf` into the left sibling 1
the recipient has grown by one with last entry `(10, 13)` (the parent's separator
and the old slot-0 child), but the page itself has shrunk by two: it is left with
size 1 and entries `[(_, 14)]`, and child 15 is dropped. -/
theorem C25_internal_MoveFirstToEndOf_drops_child :
    (poolTwoInternalB.frames 2).map (fun p => (p.size_, entries p)) =
      some (3, [(0, 13), (15, 14), (17, 15)]) ∧
    (poolTwoInternalB.frames 1).map (fun p => (p.size_, entries p)) =
      some (2, [(0, 11), (5, 12)]) ∧
    (MoveFirstToEndOf poolTwoInternalB 2 1).map
      (fun bpm => ((bpm.frames 2).map (fun p => (p.size_, entries p)),
        (bpm.frames 1).map (fun p => (p.size_, entries p)))) =
      Except.ok (some (1, [(0, 14)]), some (3, [(0, 11), (5, 12), (10, 13)])) := by
  decide

/-- C26 (code defect): in `poolTwoInternal` the left sibling 1 holds
`[(_, 11), (5, 12)]`, the right sibling 2 holds `[(_, 13), (15, 14)]` and the parent
holds `[(_, 1), (10, 2)]`; after `MoveLastToFrontOf` from 1 into 2 the recipient
still has size 2, with entries `[(10, 12), (10, 13)]` (its old last entry
`(15, 14)` has fallen out of the live range), and the parent's key for page 2 is
still 10: the moved key 5 was written to the parent's slot 0 instead. -/
theorem C26_internal_MoveLastToFrontOf_wrong :
    (poolTwoInternal.frames 1).map entries = some [(0, 11), (5, 12)] ∧
    (poolTwoInternal.frames 2).map entries = some [(0, 13), (15, 14)] ∧
    (poolTwoInternal.frames 3).map entries = some [(0, 1), (10, 2)] ∧
    (MoveLastToFrontOf poolTwoInternal 1 2).map
      (fun bpm => ((bpm.frames 2).map (fun p => (p.size_, entries p)),
        (bpm.frames 3).map entries)) =
      Except.ok (some (2, [(10, 12), (10, 13)]), some [(5, 1), (10, 2)]) := by
  decide

/-- C27 (code defect): in `poolTwoInternal` the leaf 13 has page id 13 and parent 2;
after page 1 has adopted it with `CopyLastFrom((10, 13))` its parent is still 2
and its own page id has become 1: the adoption calls `SetPageId` where it should
call `SetParentPageId`. -/
theorem C27_internal_CopyLastFrom_child :
    (poolTwoInternal.frames 13).map (fun p => (p.page_id_, p.parent_page_id_)) =
      some (13, 2) ∧
    (poolTwoInternal.frames 1).map (fun p => p.page_id_) = some 1 ∧
    (CopyLastFrom poolTwoInternal 1 (10, 13)).map
      (fun bpm => ((bpm.frames 13).map (fun p => (p.page_id_, p.parent_page_id_)),
        (bpm.frames 1).map entries)) =
      Except.ok (some (1, 2), some [(0, 11), (5, 12), (10, 13)]) := by
  decide

end InternalPage

namespace BPlusTree

/-! ### Tree engine -/

/-- `FindLeafPage` hands back the null pointer whenever it returns. -/
theorem FindLeafPage_fst (fuel : Nat) (t : BPlusTree) (key : Int) (leftMost : Bool)
    (r : Option Int × BPlusTree) (h : FindLeafPage fuel t key leftMost = Except.ok r) :
    r.1 = none := by
  unfold FindLeafPage at h
  split_ifs at h with he
  · injection h with h
    rw [← h]
  · cases hl : FindLeafPage.loop key leftMost fuel
        (FetchPage t.buffer_pool_manager_ t.root_page_id_).2 t.root_page_id_
        (FetchPage t.buffer_pool_manager_ t.root_page_id_).1 with
    | error e =>
      simp only [hl, bind, Except.bind] at h
      cases h
    | ok bpm =>
      simp only [hl, bind, Except.bind, pure, Except.pure] at h
      injection h with h
      rw [← h]

theorem FindLeafPage_empty (fuel : Nat) (t : BPlusTree) (key : Int) (leftMost : Bool)
    (h : IsEmpty t = true) : FindLeafPage fuel t key leftMost = Except.ok (none, t) := by
  unfold FindLeafPage
  rw [if_pos h]

/-- On a non-empty tree `InsertIntoLeaf` never returns. -/
theorem InsertIntoLeaf_faults (fuel : Nat) (t : BPlusTree) (key value : Int) :
    ∃ e, InsertIntoLeaf fuel t key value = Except.error e := by
  unfold InsertIntoLeaf
  cases h : FindLeafPage fuel t key false with
  | error e => exact ⟨e, rfl⟩
  | ok r =>
    obtain ⟨leaf, t1⟩ := r
    have := FindLeafPage_fst fuel t key false _ h
    simp only at this
    subst this
    exact ⟨Fault.nullDeref, rfl⟩

/-- `Remove` returns only on the empty tree, which it leaves as it is. -/
theorem Remove_ok (fuel : Nat) (t t1 : BPlusTree) (key : Int)
    (h : Remove fuel t key = Except.ok t1) : IsEmpty t = true ∧ t1 = t := by
  unfold Remove at h
  split_ifs at h with he
  · injection h with h
    exact ⟨he, h.symm⟩
  · exfalso
    cases hf : FindLeafPage fuel t key false with
    | error e =>
      simp only [hf, bind, Except.bind] at h
      cases h
    | ok r =>
      obtain ⟨leaf, t2⟩ := r
      have := FindLeafPage_fst fuel t key false _ hf
      simp only at this
      subst this
      simp only [hf, bind, Except.bind] at h
      cases h

theorem GetValue_empty (fuel : Nat) (t : BPlusTree) (key : Int) (result : List Int)
    (h : IsEmpty t = true) : GetValue fuel t key result = Except.ok (false, result, t) := by
  unfold GetValue
  rw [FindLeafPage_empty fuel t key false h]
  rfl

/-- `GetValue` never reports a key as found and never touches the result vector. -/
theorem GetValue_fst (fuel : Nat) (t : BPlusTree) (key : Int) (result : List Int)
    (r : Bool × List Int × BPlusTree) (h : GetValue fuel t key result = Except.ok r) :
    r.1 = false ∧ r.2.1 = result := by
  unfold GetValue at h
  cases hf : FindLeafPage fuel t key false with
  | error e =>
    simp only [hf, bind, Except.bind] at h
    cases h
  | ok x =>
    obtain ⟨leaf, t2⟩ := x
    have := FindLeafPage_fst fuel t key false _ hf
    simp only at this
    subst this
    simp only [hf, bind, Except.bind, pure, Except.pure] at h
    injection h with h
    rw [← h]
    exact ⟨rfl, rfl⟩

/-- `AdjustRoot` on a leaf page gives up the root whatever the size of the leaf;
no frame is touched. -/
theorem AdjustRoot_leaf (t : BPlusTree) (node : Int) (page : BPlusTreePage)
    (h1 : t.buffer_pool_manager_.frames node = some page) (h2 : IsLeafPage page = true) :
    ∃ t1, AdjustRoot t node = Except.ok (true, t1) ∧ t1.root_page_id_ = INVALID_PAGE_ID ∧
      t1.buffer_pool_manager_.frames = t.buffer_pool_manager_.frames := by
  unfold AdjustRoot
  simp only [deref, h1, bind, Except.bind, h2, if_true, pure, Except.pure]
  exact ⟨_, rfl, rfl, rfl⟩

/-- C19 (code defect): the tree `treeWith5` is not empty and its root is a leaf, yet
`FindLeafPage` returns the null pointer on it, for `leftMost` false and true, just
as it does on the empty tree. -/
theorem C19_FindLeafPage_returns_null :
    IsEmpty treeWith5 = false ∧
    (treeWith5.buffer_pool_manager_.frames treeWith5.root_page_id_).map IsLeafPage =
      some true ∧
    (∀ fuel, (FindLeafPage (fuel + 1) treeWith5 5 false).map (fun r => r.1) = Except.ok none) ∧
    (∀ fuel, (FindLeafPage (fuel + 1) treeWith5 5 true).map (fun r => r.1) = Except.ok none) ∧
    (∀ fuel, (FindLeafPage fuel emptyTree4 5 false).map (fun r => r.1) = Except.ok none) := by
  refine ⟨by decide, by decide, fun _ => rfl, fun _ => rfl, fun _ => rfl⟩

/-- C22: when `left` is the root, `InsertIntoParent(left, key, right)` returns and
afterwards `root_page_id_` is the id that `NewPage` handed out; the page it names is
an internal page with parent `INVALID_PAGE_ID` and size 2 whose slot 0 names
`left`, whose slot 1 is `(key, right)`, and `left` and `right` both have the new
root as parent and are otherwise unchanged. -/
theorem C22_InsertIntoParent_new_root (fuel : Nat) (t : BPlusTree) (left right key : Int)
    (lp rp : BPlusTreePage)
    (hl : t.buffer_pool_manager_.frames left = some lp)
    (hr : t.buffer_pool_manager_.frames right = some rp)
    (hroot : IsRootPage lp = true)
    (hlr : left ≠ right)
    (hl2 : left ≠ (t.buffer_pool_manager_.next_page_id : Int))
    (hr2 : right ≠ (t.buffer_pool_manager_.next_page_id : Int)) :
    ∃ t1 root, InsertIntoParent (fuel + 1) t left key right = Except.ok t1 ∧
      t1.root_page_id_ = (NewPage t.buffer_pool_manager_).1 ∧
      t1.buffer_pool_manager_.frames t1.root_page_id_ = some root ∧
      root.page_type_ = IndexPageType.INTERNAL_PAGE ∧
      GetPageId root = t1.root_page_id_ ∧
      GetParentPageId root = INVALID_PAGE_ID ∧
      GetSize root = 2 ∧
      entries root = [((root.array_ 0).1, GetPageId lp), (key, GetPageId rp)] ∧
      t1.buffer_pool_manager_.frames left = some (SetParentPageId lp t1.root_page_id_) ∧
      t1.buffer_pool_manager_.frames right = some (SetParentPageId rp t1.root_page_id_) := by
  unfold InsertIntoParent
  simp only [deref, hl, hr, hroot, if_true, NewPage, store, bind, Except.bind, pure, Except.pure,
    UpdateRootPageId, UnpinPage, Function.update_apply, hlr, hlr.symm, hl2, hr2, hl2.symm,
    hr2.symm, if_false]
  refine ⟨_, InternalPage.PopulateNewRoot
      (InternalPage.Init t.layout zeroedFrame (t.buffer_pool_manager_.next_page_id : Int)
        INVALID_PAGE_ID) (GetPageId lp) key (GetPageId rp),
    rfl, rfl, ?_, rfl, rfl, rfl, rfl, rfl, ?_, ?_⟩
  · simp only [Function.update_apply, hl2.symm, hr2.symm, if_false, if_true]
  · simp only [Function.update_apply, hlr, if_false, if_true]
  · simp only [Function.update_apply, if_true]

theorem C22_InsertIntoParent_new_root_witness :
    treeSplitLeaves.buffer_pool_manager_.frames 1 = some leaf_split_left ∧
    treeSplitLeaves.buffer_pool_manager_.frames 2 = some leaf_split_right ∧
    IsRootPage leaf_split_left = true ∧
    ∃ t1 root, InsertIntoParent (0 + 1) treeSplitLeaves 1 3 2 = Except.ok t1 ∧
      t1.root_page_id_ = (NewPage treeSplitLeaves.buffer_pool_manager_).1 ∧
      t1.buffer_pool_manager_.frames t1.root_page_id_ = some root ∧
      root.page_type_ = IndexPageType.INTERNAL_PAGE ∧
      GetPageId root = t1.root_page_id_ ∧
      GetParentPageId root = INVALID_PAGE_ID ∧
      GetSize root = 2 ∧
      entries root =
        [((root.array_ 0).1, GetPageId leaf_split_left), (3, GetPageId leaf_split_right)] ∧
      t1.buffer_pool_manager_.frames 1 = some (SetParentPageId leaf_split_left t1.root_page_id_) ∧
      t1.buffer_pool_manager_.frames 2 =
        some (SetParentPageId leaf_split_right t1.root_page_id_) :=
  ⟨rfl, rfl, rfl,
    C22_InsertIntoParent_new_root 0 treeSplitLeaves 1 2 3 leaf_split_left leaf_split_right
      rfl rfl rfl (by decide) (by decide) (by decide)⟩

/-- C24: for a leaf `this` of size at least 2 that sits in slot `i ≥ 1` of its
parent and a recipient leaf, `MoveFirstToEndOf` returns; afterwards the old entry 0
of `this` is the last entry of the recipient, the remaining entries of `this` have
moved one slot to the left (the new entry 0 is the old entry 1), the key of the
parent's slot `i` is the new first key of `this`, and nothing else in the parent
has changed. -/
theorem C24_leaf_MoveFirstToEndOf (bpm : BufferPoolManager) (this recipient : Int)
    (p r pp : BPlusTreePage) (i : Int)
    (hp : bpm.frames this = some p) (hr : bpm.frames recipient = some r)
    (hpp : bpm.frames (GetParentPageId p) = some pp)
    (h1 : this ≠ recipient) (h2 : GetParentPageId p ≠ this)
    (h3 : GetParentPageId p ≠ recipient)
    (hsize : 2 ≤ p.size_) (hrsize : 0 ≤ r.size_)
    (hi1 : 1 ≤ i) (hi2 : i < pp.size_) (hi3 : (pp.array_ i).2 = GetPageId p)
    (hfirst : ∀ j, 1 ≤ j → j < i → (pp.array_ j).2 ≠ GetPageId p) :
    ∃ bpm1 p1 r1 pp1, LeafPage.MoveFirstToEndOf bpm this recipient = Except.ok bpm1 ∧
      bpm1.frames this = some p1 ∧ bpm1.frames recipient = some r1 ∧
      bpm1.frames (GetParentPageId p) = some pp1 ∧
      entries r1 = entries r ++ [p.array_ 0] ∧ GetSize r1 = GetSize r + 1 ∧
      entries p1 = (entries p).drop 1 ∧ GetSize p1 = GetSize p - 1 ∧
      p1.array_ 0 = p.array_ 1 ∧
      (pp1.array_ i).1 = (p1.array_ 0).1 ∧ (pp1.array_ i).2 = (pp.array_ i).2 ∧
      (∀ j, j ≠ i → pp1.array_ j = pp.array_ j) ∧ GetSize pp1 = GetSize pp := by
  have hvi : InternalPage.ValueIndex pp p.page_id_ = i :=
    InternalPage.ValueIndex_of_slot pp (GetPageId p) i hi1 hi2 hi3 hfirst
  have hpp1 : bpm.frames p.parent_page_id_ = some pp := hpp
  have h21 : p.parent_page_id_ ≠ this := h2
  have h31 : p.parent_page_id_ ≠ recipient := h3
  have hn : ¬ (p.size_ + -1 < 0) := by omega
  unfold LeafPage.MoveFirstToEndOf
  simp only [deref, FetchPage, hp, hr, hpp1, store, UnpinPage, bind, Except.bind, pure,
    Except.pure, Function.update_apply, h1, h1.symm, h21, h21.symm, h31, h31.symm, if_false,
    if_true, IncreaseSize, GetParentPageId, GetPageId, GetSize, LeafPage.GetItem,
    LeafPage.CopyLastFrom, hvi, memmove, if_neg hn]
  refine ⟨_,
    { p with size_ := p.size_ + -1, array_ := moveCells p.array_ 0 1 (p.size_ + -1) },
    { r with size_ := r.size_ + 1, array_ := Function.update r.array_ r.size_ (p.array_ 0) },
    InternalPage.SetKeyAt pp i (moveCells p.array_ 0 1 (p.size_ + -1) 0).1,
    rfl, ?_, ?_, ?_, entries_push r (p.array_ 0) hrsize, rfl,
    entries_shift_left p, rfl, ?_, ?_, ?_, ?_, rfl⟩
  · simp only [Function.update_apply, h21.symm, h1, if_false, if_true]
  · simp only [Function.update_apply, h31.symm, if_false, if_true]
  · simp only [Function.update_apply, if_true]
  · have c : (0 : Int) ≤ 0 ∧ (0 : Int) < 0 + (p.size_ + -1) := ⟨le_refl _, by omega⟩
    simp only [moveCells, if_pos c]
    rfl
  · simp only [InternalPage.SetKeyAt, Function.update_apply, if_true]
  · simp only [InternalPage.SetKeyAt, Function.update_apply, if_true]
  · intro j hj
    simp only [InternalPage.SetKeyAt, Function.update_apply, if_neg hj]

theorem C24_leaf_MoveFirstToEndOf_witness :
    poolLeavesRightFull.frames 2 = some (leafOf 2 3 4 [(5, 50), (6, 60), (7, 70), (8, 80)]) ∧
    (poolLeavesRightFull.frames 1).map entries = some [(1, 10), (2, 20)] ∧
    (poolLeavesRightFull.frames 3).map entries = some [(0, 1), (5, 2)] ∧
    ∃ bpm1 p1 r1 pp1, LeafPage.MoveFirstToEndOf poolLeavesRightFull 2 1 = Except.ok bpm1 ∧
      bpm1.frames 2 = some p1 ∧ bpm1.frames 1 = some r1 ∧
      bpm1.frames (GetParentPageId (leafOf 2 3 4 [(5, 50), (6, 60), (7, 70), (8, 80)])) =
        some pp1 ∧
      entries r1 = entries { leafOf 1 3 4 [(1, 10), (2, 20)] with next_page_id_ := 2 } ++
        [(leafOf 2 3 4 [(5, 50), (6, 60), (7, 70), (8, 80)]).array_ 0] ∧
      GetSize r1 = GetSize { leafOf 1 3 4 [(1, 10), (2, 20)] with next_page_id_ := 2 } + 1 ∧
      entries p1 = (entries (leafOf 2 3 4 [(5, 50), (6, 60), (7, 70), (8, 80)])).drop 1 ∧
      GetSize p1 = GetSize (leafOf 2 3 4 [(5, 50), (6, 60), (7, 70), (8, 80)]) - 1 ∧
      p1.array_ 0 = (leafOf 2 3 4 [(5, 50), (6, 60), (7, 70), (8, 80)]).array_ 1 ∧
      (pp1.array_ 1).1 = (p1.array_ 0).1 ∧
      (pp1.array_ 1).2 = ((internalOf 3 INVALID_PAGE_ID 4 [(0, 1), (5, 2)]).array_ 1).2 ∧
      (∀ j, j ≠ 1 → pp1.array_ j = (internalOf 3 INVALID_PAGE_ID 4 [(0, 1), (5, 2)]).array_ j) ∧
      GetSize pp1 = GetSize (internalOf 3 INVALID_PAGE_ID 4 [(0, 1), (5, 2)]) :=
  ⟨rfl, by decide, by decide,
    C24_leaf_MoveFirstToEndOf poolLeavesRightFull 2 1
      (leafOf 2 3 4 [(5, 50), (6, 60), (7, 70), (8, 80)])
      { leafOf 1 3 4 [(1, 10), (2, 20)] with next_page_id_ := 2 }
      (internalOf 3 INVALID_PAGE_ID 4 [(0, 1), (5, 2)]) 1
      rfl rfl rfl (by decide) (by decide) (by decide) (by decide) (by decide) (by decide)
      (by decide) (by decide) (by intro j a b; omega)⟩

/-- C21 (code defect): the root of `treeInternalRoot1` is the internal page 3 of
size 1 with the single child 1; `AdjustRoot` on it does not promote the child but
fails the assertion inside `RemoveAndReturnOnlyChild`.  On the internal root of
size 2 of `treeInternalRoot2` it returns false and leaves the root id as it was. -/
theorem C21_AdjustRoot_internal_size_one_asserts :
    treeInternalRoot1.root_page_id_ = 3 ∧
    (treeInternalRoot1.buffer_pool_manager_.frames 3).map
      (fun p => (IsLeafPage p, GetSize p, entries p)) = some (false, 1, [(0, 1)]) ∧
    (AdjustRoot treeInternalRoot1 3).map (fun r => (r.1, r.2.root_page_id_)) =
      Except.error Fault.assertFail ∧
    (AdjustRoot treeInternalRoot2 3).map (fun r => (r.1, r.2.root_page_id_)) =
      Except.ok (false, 3) := by
  decide

/-- C23 (code defect): in `poolTwoLeaves` the parent stores key 5 for the right leaf
2, whose first key is 6.  After `MoveLastToFrontOf` from the left leaf 1 the entry
`(4, 40)` is entry 0 of leaf 2, but the parent's key for page 2 is still 5, not 4:
the slot is looked up by the key 6, which the parent does not hold, and the
result -1 is used as the slot. -/
theorem C23_leaf_MoveLastToFrontOf_stale_separator :
    (poolTwoLeaves.frames 1).map entries = some [(1, 10), (2, 20), (3, 30), (4, 40)] ∧
    (poolTwoLeaves.frames 2).map entries = some [(6, 60)] ∧
    (poolTwoLeaves.frames 3).map entries = some [(0, 1), (5, 2)] ∧
    (poolTwoLeaves.frames 3).map (fun p => InternalPage.KeyIndex p 6) = some (-1) ∧
    (LeafPage.MoveLastToFrontOf poolTwoLeaves 1 2).map
      (fun bpm => ((bpm.frames 1).map entries, (bpm.frames 2).map entries)) =
      Except.ok (some [(1, 10), (2, 20), (3, 30)], some [(4, 40), (6, 60)]) ∧
    (LeafPage.MoveLastToFrontOf poolTwoLeaves 1 2).map
      (fun bpm => (bpm.frames 3).map (fun p => (entries p, p.array_ (-1)))) =
      Except.ok (some ([(0, 1), (5, 2)], (4, 0))) := by
  decide

/-- C30 (code defect): in `treeLeafLeftmost` the underflowing leaf 1 `[(1, 10)]` is
the leftmost child and its sibling is the right neighbour 2
`[(10, 100), (11, 110)]`.  `Coalesce` with index 0 moves the entries of the left
page behind those of the right one: the surviving page 2 holds
`[(10, 100), (11, 110), (1, 10)]`, which is not ascending.  Started from
`CoalesceOrRedistribute` the same node does not get that far: `ValueIndex` does
not find slot 0 and the sibling lookup dereferences a null pointer. -/
theorem C30_Coalesce_leftmost_wrong_order :
    (treeLeafLeftmost.buffer_pool_manager_.frames 3).map entries =
      some [(0, 1), (10, 2), (20, 4)] ∧
    (treeLeafLeftmost.buffer_pool_manager_.frames 1).map entries = some [(1, 10)] ∧
    (treeLeafLeftmost.buffer_pool_manager_.frames 2).map entries =
      some [(10, 100), (11, 110)] ∧
    (Coalesce IndexPageType.LEAF_PAGE 2 treeLeafLeftmost 2 1 3 0).map
      (fun r => (r.2.buffer_pool_manager_.frames 2).map entries) =
      Except.ok (some [(10, 100), (11, 110), (1, 10)]) ∧
    (CoalesceOrRedistribute IndexPageType.LEAF_PAGE 3 treeLeafLeftmost 1).map
      (fun r => r.1) = Except.error Fault.nullDeref := by
  decide

/-- C1 (code defect): on the empty tree `Insert(5, 50)` returns true and leaves the
single root leaf `[(5, 50)]`, yet the `GetValue(5)` that follows returns false and
leaves the result vector empty, because `FindLeafPage` returns the null pointer. -/
theorem C1_GetValue_after_Insert :
    Insert 1 emptyTree4 5 50 = Except.ok (true, treeWith5) ∧
    (treeWith5.buffer_pool_manager_.frames treeWith5.root_page_id_).map entries =
      some [(5, 50)] ∧
    ∀ fuel, (GetValue (fuel + 1) treeWith5 5 []).map (fun r => (r.1, r.2.1)) =
      Except.ok (false, []) := by
  refine ⟨rfl, by decide, ?_⟩
  intro fuel
  rfl

/-- C2 (code defect): the tree `treeWith5` stores key 5, and `Remove(5)` on it does
not return: it dereferences the null pointer that `FindLeafPage` returned, so the
key is never removed.  `Remove` returns on the empty tree only, which it leaves as
it is. -/
theorem C2_Remove_stored_key_faults :
    IsEmpty treeWith5 = false ∧
    (treeWith5.buffer_pool_manager_.frames treeWith5.root_page_id_).map entries =
      some [(5, 50)] ∧
    (∀ fuel, Remove (fuel + 1) treeWith5 5 = Except.error Fault.nullDeref) ∧
    ∀ fuel t k t1, Remove fuel t k = Except.ok t1 → IsEmpty t = true ∧ t1 = t := by
  refine ⟨by decide, by decide, ?_, ?_⟩
  · intro fuel
    rfl
  · intro fuel t k t1 h
    exact Remove_ok fuel t t1 k h

/-- C3 (code defect): the tree `treeWith5` stores key 5, and `Insert(5, 60)` on it
does not return false: it dereferences the null pointer that `FindLeafPage`
returned. -/
theorem C3_duplicate_Insert_faults :
    IsEmpty treeWith5 = false ∧
    (treeWith5.buffer_pool_manager_.frames treeWith5.root_page_id_).map entries =
      some [(5, 50)] ∧
    ∀ fuel, Insert (fuel + 1) treeWith5 5 60 = Except.error Fault.nullDeref := by
  refine ⟨by decide, by decide, ?_⟩
  intro fuel
  rfl

/-- C4 (code defect): the tree `treeWith5` is not empty and does not store key 7,
and `Remove(7)` on it is not a no-op: it dereferences the null pointer that
`FindLeafPage` returned. -/
theorem C4_Remove_absent_faults :
    IsEmpty treeWith5 = false ∧
    (treeWith5.buffer_pool_manager_.frames treeWith5.root_page_id_).map entries =
      some [(5, 50)] ∧
    ∀ fuel, Remove (fuel + 1) treeWith5 7 = Except.error Fault.nullDeref := by
  refine ⟨by decide, by decide, ?_⟩
  intro fuel
  rfl

/-- C5 (code defect): `AdjustRoot` on the leaf root of `treeWith5`, which still
holds the entry `(5, 50)`, reports deletion and sets `root_page_id_` to
`INVALID_PAGE_ID`. -/
theorem C5_AdjustRoot_nonempty_leaf :
    treeWith5.root_page_id_ = 1 ∧
    (treeWith5.buffer_pool_manager_.frames 1).map (fun p => (IsLeafPage p, entries p)) =
      some (true, [(5, 50)]) ∧
    (AdjustRoot treeWith5 1).map (fun r => (r.1, r.2.root_page_id_, IsEmpty r.2)) =
      Except.ok (true, INVALID_PAGE_ID, true) := by
  decide

theorem LeafPage_KeyIndex_of_size_zero (p : BPlusTreePage) (k : Int) (h : p.size_ = 0) :
    LeafPage.KeyIndex p k = Except.ok 0 := by
  simp [LeafPage.KeyIndex, LeafPage.KeyIndex.loop, GetSize, h]

/-- C6: on an empty tree `Insert(k, v)` returns true; afterwards `root_page_id_` is
the id that `NewPage` handed out (the pool's allocation counter has moved past it),
the page it names is a leaf with parent `INVALID_PAGE_ID`, next page
`INVALID_PAGE_ID` and entries exactly `[(k, v)]`, and `IsEmpty` is false. -/
theorem C6_Insert_into_empty_tree (fuel : Nat) (t : BPlusTree) (k v : Int)
    (h : IsEmpty t = true) :
    ∃ t1 root, Insert fuel t k v = Except.ok (true, t1) ∧
      t1.root_page_id_ = (NewPage t.buffer_pool_manager_).1 ∧
      t1.root_page_id_ = (t.buffer_pool_manager_.next_page_id : Int) ∧
      t1.buffer_pool_manager_.next_page_id = t.buffer_pool_manager_.next_page_id + 1 ∧
      t1.buffer_pool_manager_.frames t1.root_page_id_ = some root ∧
      IsLeafPage root = true ∧
      GetPageId root = t1.root_page_id_ ∧
      GetParentPageId root = INVALID_PAGE_ID ∧
      LeafPage.GetNextPageId root = INVALID_PAGE_ID ∧
      GetSize root = 1 ∧
      entries root = [(k, v)] ∧
      IsEmpty t1 = false := by
  unfold Insert
  rw [if_pos h]
  unfold StartNewTree
  simp only [NewPage, deref, store, Function.update_same, bind, Except.bind, pure, Except.pure,
    UpdateRootPageId, UnpinPage]
  rw [LeafPage.Insert_eq _ k v 0 (LeafPage_KeyIndex_of_size_zero _ k rfl)]
  refine ⟨_,
    { LeafPage.Init t.layout zeroedFrame (t.buffer_pool_manager_.next_page_id : Int)
        INVALID_PAGE_ID with
      size_ := 0 + 1,
      array_ := fun j => if j = 0 then (k, v) else if 0 < j ∧ j ≤ 0 then (0, 0) else (0, 0) },
    rfl, rfl, rfl, rfl, ?_, rfl, rfl, rfl, rfl, rfl, ?_, ?_⟩
  · simp only [Function.update_same]
    rfl
  · rfl
  · simp only [IsEmpty, INVALID_PAGE_ID]
    rw [if_neg (by omega)]

theorem C6_Insert_into_empty_tree_witness :
    IsEmpty emptyTree4 = true ∧
    ∃ t1 root, Insert 1 emptyTree4 5 50 = Except.ok (true, t1) ∧
      t1.root_page_id_ = (NewPage emptyTree4.buffer_pool_manager_).1 ∧
      t1.root_page_id_ = (emptyTree4.buffer_pool_manager_.next_page_id : Int) ∧
      t1.buffer_pool_manager_.next_page_id = emptyTree4.buffer_pool_manager_.next_page_id + 1 ∧
      t1.buffer_pool_manager_.frames t1.root_page_id_ = some root ∧
      IsLeafPage root = true ∧
      GetPageId root = t1.root_page_id_ ∧
      GetParentPageId root = INVALID_PAGE_ID ∧
      LeafPage.GetNextPageId root = INVALID_PAGE_ID ∧
      GetSize root = 1 ∧
      entries root = [(5, 50)] ∧
      IsEmpty t1 = false :=
  ⟨rfl, C6_Insert_into_empty_tree 1 emptyTree4 5 50 rfl⟩

/-- C7 (code defect): nothing is pinned in `treeWith5`, `GetValue(5)` on it returns,
and afterwards the root leaf, page 1, is still pinned once: the page that
`FindLeafPage` fetched is never unpinned. -/
theorem C7_GetValue_leaves_leaf_pinned :
    CheckAllUnpinned treeWith5.buffer_pool_manager_ ∧
    ∀ fuel, (GetValue (fuel + 1) treeWith5 5 []).map
      (fun r => (r.1, r.2.2.buffer_pool_manager_.pin_count 1)) = Except.ok (false, 1) := by
  refine ⟨?_, ?_⟩
  · intro page_id
    have e : treeWith5.buffer_pool_manager_.pin_count =
        Function.update (Function.update (Function.update (Function.update (fun _ => 0)
          (1 : Int) 1) HEADER_PAGE_ID 1) HEADER_PAGE_ID 0) (1 : Int) 0 := rfl
    rw [e]
    simp only [Function.update_apply]
    split_ifs <;> rfl
  · intro fuel
    rfl

/-- C31 (code defect): in `treeParentAboveMin` the internal page 2 is not the root,
has size 3 and minimum size 2.  `Coalesce` of the leaf 14 into its left sibling 13
removes slot 1 of page 2, which leaves it with `[(_, 13), (17, 19)]`, size 2, its
minimum size; the call nevertheless goes on with `CoalesceOrRedistribute` on page
2: it returns true, page 2 is in the deleted set and has been emptied into its
sibling. -/
theorem C31_Coalesce_recurses_at_min_size :
    (treeParentAboveMin.buffer_pool_manager_.frames 2).map
      (fun p => (IsRootPage p, GetSize p, GetMinSize p)) = some (false, 3, 2) ∧
    (treeParentAboveMin.buffer_pool_manager_.frames 2).map
      (fun p => (InternalPage.Remove p 1).map (fun q => (GetSize q, entries q))) =
      some (Except.ok (2, [(0, 13), (17, 19)])) ∧
    (Coalesce IndexPageType.LEAF_PAGE 4 treeParentAboveMin 13 14 2 1).map
      (fun r => (r.1, r.2.deleted_page_set)) = Except.ok (true, [14, 2]) ∧
    (Coalesce IndexPageType.LEAF_PAGE 4 treeParentAboveMin 13 14 2 1).map
      (fun r => ((r.2.buffer_pool_manager_.frames 2).map (fun p => (GetSize p, entries p)),
        (r.2.buffer_pool_manager_.frames 3).map entries)) =
      Except.ok (some (0, []), some [(0, 1), (30, 5)]) := by
  decide!

/-- Leaf `MoveFirstToEndOf` returns whenever the page, the recipient and the page's
parent are three pages of the pool, and these are the two leaves it leaves behind. -/
theorem MoveFirstToEndOf_leaves (bpm : BufferPoolManager) (this recipient : Int)
    (p r pp : BPlusTreePage)
    (hp : bpm.frames this = some p) (hr : bpm.frames recipient = some r)
    (hpp : bpm.frames p.parent_page_id_ = some pp)
    (h1 : this ≠ recipient) (h2 : p.parent_page_id_ ≠ this)
    (h3 : p.parent_page_id_ ≠ recipient) (hsize : 1 ≤ p.size_) :
    ∃ bpm1, LeafPage.MoveFirstToEndOf bpm this recipient = Except.ok bpm1 ∧
      bpm1.frames this = some { p with
        size_ := p.size_ + -1
        array_ := moveCells p.array_ 0 1 (p.size_ + -1) } ∧
      bpm1.frames recipient = some { r with
        size_ := r.size_ + 1
        array_ := Function.update r.array_ r.size_ (p.array_ 0) } := by
  have hn : ¬ (p.size_ + -1 < 0) := by omega
  unfold LeafPage.MoveFirstToEndOf
  simp only [deref, FetchPage, hp, hr, hpp, store, UnpinPage, bind, Except.bind, pure,
    Except.pure, Function.update_apply, h1, h1.symm, h2, h2.symm, h3, h3.symm, if_false,
    if_true, IncreaseSize, GetParentPageId, GetPageId, GetSize, LeafPage.GetItem,
    LeafPage.CopyLastFrom, memmove, if_neg hn]
  refine ⟨_, rfl, ?_, ?_⟩
  · simp only [Function.update_apply, h2.symm, h1, if_false, if_true]
  · simp only [Function.update_apply, h3.symm, if_false, if_true]

/-- Leaf `MoveLastToFrontOf` returns whenever the page, the recipient and the
recipient's parent are three pages of the pool, and these are the two leaves it
leaves behind. -/
theorem MoveLastToFrontOf_leaves (bpm : BufferPoolManager) (this recipient : Int)
    (p r pp : BPlusTreePage)
    (hp : bpm.frames this = some p) (hr : bpm.frames recipient = some r)
    (hpp : bpm.frames r.parent_page_id_ = some pp)
    (h1 : this ≠ recipient) (h2 : r.parent_page_id_ ≠ this)
    (h3 : r.parent_page_id_ ≠ recipient) (hrsize : 0 ≤ r.size_) :
    ∃ bpm1, LeafPage.MoveLastToFrontOf bpm this recipient = Except.ok bpm1 ∧
      bpm1.frames this = some { p with size_ := p.size_ + -1 } ∧
      bpm1.frames recipient = some { r with
        size_ := r.size_ + 1
        array_ := Function.update (moveCells r.array_ 1 0 r.size_) 0
          (p.array_ (p.size_ - 1)) } ∧
      (bpm1.frames r.parent_page_id_).isSome = true := by
  have hn : ¬ (r.size_ < 0) := by omega
  unfold LeafPage.MoveLastToFrontOf LeafPage.CopyFirstFrom
  simp only [deref, FetchPage, hp, hr, hpp, store, UnpinPage, bind, Except.bind, pure,
    Except.pure, Function.update_apply, h1, h1.symm, h2, h2.symm, h3, h3.symm, if_false,
    if_true, IncreaseSize, GetParentPageId, GetPageId, GetSize, LeafPage.GetItem, memmove,
    if_neg hn]
  refine ⟨_, rfl, ?_, ?_, ?_⟩
  · simp only [Function.update_apply, h2.symm, h1, if_false, if_true]
  · simp only [Function.update_apply, h3.symm, if_false, if_true]
  · simp only [Function.update_apply, if_true, Option.isSome_some]

/-- Two lists of entries that together are a sorted list split somewhere else have
ascending keys each. -/
theorem pairwise_of_concat_eq (l1 l2 m1 m2 : List MappingType) (h : m1 ++ m2 = l1 ++ l2)
    (ha : (l1.map Prod.fst).Pairwise (fun a b => a < b))
    (hb : (l2.map Prod.fst).Pairwise (fun a b => a < b))
    (hab : ∀ a ∈ l1, ∀ b ∈ l2, a.1 < b.1) :
    (m1.map Prod.fst).Pairwise (fun a b => a < b) ∧
      (m2.map Prod.fst).Pairwise (fun a b => a < b) := by
  have hcat : ((l1 ++ l2).map Prod.fst).Pairwise (fun a b => a < b) := by
    rw [List.map_append, List.pairwise_append]
    refine ⟨ha, hb, ?_⟩
    intro a ha1 b hb1
    obtain ⟨x, hx, rfl⟩ := List.mem_map.1 ha1
    obtain ⟨y, hy, rfl⟩ := List.mem_map.1 hb1
    exact hab x hx y hy
  rw [← h, List.map_append, List.pairwise_append] at hcat
  exact ⟨hcat.1, hcat.2.1⟩

/-- C32: leaf `Redistribute` conserves entries and order.  `node` and its sibling
`neighbor_node` (at least one entry) are distinct leaves of the pool under a
common parent, both strictly ascending; for `index = 0` the node is the left one
and every key of it is smaller than every key of the sibling, otherwise the
sibling is the left one.  Then `Redistribute` returns; the concatenation left ++
right of the entries of the two leaves is what it was, the sibling has one entry
less and the node one more, and both are still strictly ascending. -/
theorem C32_leaf_Redistribute_conserves (t : BPlusTree) (neighbor_node node index : Int)
    (nb nd pp : BPlusTreePage)
    (hnb : t.buffer_pool_manager_.frames neighbor_node = some nb)
    (hnd : t.buffer_pool_manager_.frames node = some nd)
    (hcommon : GetParentPageId nb = GetParentPageId nd)
    (hpp : t.buffer_pool_manager_.frames (GetParentPageId nd) = some pp)
    (h1 : neighbor_node ≠ node) (h2 : GetParentPageId nd ≠ neighbor_node)
    (h3 : GetParentPageId nd ≠ node)
    (hsize : 1 ≤ nb.size_) (hnsize : 0 ≤ nd.size_)
    (hasc1 : StrictAsc nb) (hasc2 : StrictAsc nd)
    (hord : ∀ a ∈ entries nb, ∀ b ∈ entries nd,
      if index = 0 then b.1 < a.1 else a.1 < b.1) :
    ∃ t1 nb1 nd1,
      Redistribute IndexPageType.LEAF_PAGE t neighbor_node node index = Except.ok t1 ∧
      t1.buffer_pool_manager_.frames neighbor_node = some nb1 ∧
      t1.buffer_pool_manager_.frames node = some nd1 ∧
      (if index = 0 then entries nd1 ++ entries nb1 = entries nd ++ entries nb
        else entries nb1 ++ entries nd1 = entries nb ++ entries nd) ∧
      GetSize nb1 = GetSize nb - 1 ∧ GetSize nd1 = GetSize nd + 1 ∧
      StrictAsc nb1 ∧ StrictAsc nd1 := by
  have hc : nb.parent_page_id_ = nd.parent_page_id_ := hcommon
  have hpp1 : t.buffer_pool_manager_.frames nd.parent_page_id_ = some pp := hpp
  have h21 : nd.parent_page_id_ ≠ neighbor_node := h2
  have h31 : nd.parent_page_id_ ≠ node := h3
  by_cases hi : index = 0
  · obtain ⟨bpm1, e, f1, f2⟩ := MoveFirstToEndOf_leaves t.buffer_pool_manager_ neighbor_node
      node nb nd pp hnb hnd (by rw [hc]; exact hpp1) h1 (by rw [hc]; exact h21)
      (by rw [hc]; exact h31) hsize
    have hcat : entries { nd with
          size_ := nd.size_ + 1
          array_ := Function.update nd.array_ nd.size_ (nb.array_ 0) } ++
        entries { nb with
          size_ := nb.size_ + -1
          array_ := moveCells nb.array_ 0 1 (nb.size_ + -1) } = entries nd ++ entries nb := by
      rw [entries_push nd _ hnsize, entries_shift_left, List.append_assoc,
        List.singleton_append, ← entries_head nb hsize]
    have hasc := pairwise_of_concat_eq _ _ _ _ hcat hasc2 hasc1
      (fun a ha b hb => by
        have c := hord b hb a ha
        rw [if_pos hi] at c
        exact c)
    refine ⟨{ t with buffer_pool_manager_ := bpm1 }, _, _, ?_, f1, f2, ?_, ?_, rfl,
      hasc.2, hasc.1⟩
    · unfold Redistribute
      simp only [if_pos hi, if_true, e, bind, Except.bind, pure, Except.pure]
    · rw [if_pos hi]
      exact hcat
    · show nb.size_ + -1 = nb.size_ - 1
      omega
  · obtain ⟨bpm1, e, f1, f2, _⟩ := MoveLastToFrontOf_leaves t.buffer_pool_manager_ neighbor_node
      node nb nd pp hnb hnd hpp1 h1 h21 h31 hnsize
    have hcat : entries { nb with size_ := nb.size_ + -1 } ++
        entries { nd with
          size_ := nd.size_ + 1
          array_ := Function.update (moveCells nd.array_ 1 0 nd.size_) 0
            (nb.array_ (nb.size_ - 1)) } = entries nb ++ entries nd := by
      rw [entries_unshift nd _ hnsize, ← List.singleton_append, ← List.append_assoc,
        entries_pop nb hsize]
    have hasc := pairwise_of_concat_eq _ _ _ _ hcat hasc1 hasc2
      (fun a ha b hb => by
        have c := hord a ha b hb
        rw [if_neg hi] at c
        exact c)
    refine ⟨{ t with buffer_pool_manager_ := bpm1 }, _, _, ?_, f1, f2, ?_, ?_, rfl,
      hasc.1, hasc.2⟩
    · unfold Redistribute
      simp only [if_neg hi, if_true, e, bind, Except.bind, pure, Except.pure]
    · rw [if_neg hi]
      exact hcat
    · show nb.size_ + -1 = nb.size_ - 1
      omega

theorem C32_leaf_Redistribute_conserves_witness :
    (∃ t1 nb1 nd1,
      Redistribute IndexPageType.LEAF_PAGE treeLeavesRightFull 2 1 0 = Except.ok t1 ∧
      t1.buffer_pool_manager_.frames 2 = some nb1 ∧
      t1.buffer_pool_manager_.frames 1 = some nd1 ∧
      entries nd1 ++ entries nb1 =
        [(1, 10), (2, 20), (5, 50), (6, 60), (7, 70), (8, 80)] ∧
      GetSize nb1 = 3 ∧ GetSize nd1 = 3 ∧ StrictAsc nb1 ∧ StrictAsc nd1) ∧
    (∃ t1 nb1 nd1,
      Redistribute IndexPageType.LEAF_PAGE treeTwoLeaves 1 2 1 = Except.ok t1 ∧
      t1.buffer_pool_manager_.frames 1 = some nb1 ∧
      t1.buffer_pool_manager_.frames 2 = some nd1 ∧
      entries nb1 ++ entries nd1 = [(1, 10), (2, 20), (3, 30), (4, 40), (6, 60)] ∧
      GetSize nb1 = 3 ∧ GetSize nd1 = 2 ∧ StrictAsc nb1 ∧ StrictAsc nd1) :=
  ⟨C32_leaf_Redistribute_conserves treeLeavesRightFull 2 1 0
      (leafOf 2 3 4 [(5, 50), (6, 60), (7, 70), (8, 80)])
      { leafOf 1 3 4 [(1, 10), (2, 20)] with next_page_id_ := 2 }
      (internalOf 3 INVALID_PAGE_ID 4 [(0, 1), (5, 2)])
      rfl rfl rfl rfl (by decide) (by decide) (by decide) (by decide) (by decide)
      (by decide) (by decide) (by decide),
    C32_leaf_Redistribute_conserves treeTwoLeaves 1 2 1
      { leafOf 1 3 4 [(1, 10), (2, 20), (3, 30), (4, 40)] with next_page_id_ := 2 }
      (leafOf 2 3 4 [(6, 60)])
      (internalOf 3 INVALID_PAGE_ID 4 [(0, 1), (5, 2)])
      rfl rfl rfl rfl (by decide) (by decide) (by decide) (by decide) (by decide)
      (by decide) (by decide) (by decide)⟩

end BPlusTree

end BPT
